import Mathlib

/-!
# Touch-sequence fridge lock: `swipeFridgeMonsterClass3.cpp` and `swipeFridgeMonsterClass.cpp`

A shallow embedding of the two Arduino sketches.  The module-level variables of the
sketch are the fields of `State`; every sketch function becomes a function on `State`.
The arrays `touchedNodes[8]` and `stepsCompleted[5]` are functions on `Fin 8` and
`Fin 5`.  The C `int`s stay far below the 16-bit range (`cycleCount <= 4`,
`totalStepsCompleted <= 5`, `i <= 11`), so `Int` and `Nat` are used without wrap-around.
The outputs of the sketch (writes to the I/O expander over the two-wire bus and
`digitalWrite` on the unlock pin) are appended to `State.log`, newest first.
-/

namespace Fridge

/-! ## Constants and tables -/

/-- Register address `GP0` of the I/O expander. -/
def GP0 : Nat := 0x00

/-- Register address `IODIR0` of the I/O expander. -/
def IODIR0 : Nat := 0x06

/-- The rows of `LEDpairs` that the sketch initialises:
`{ GP0, IODIR0, GP1, IODIR1, TimeToNext }`. -/
def LEDpairsRows : List (Nat × Nat × Nat × Nat × Nat) :=
  [ (0x20, 0x40, 0x01, 0x0A, 375),
    (0x80, 0x40, 0x04, 0x0A, 375),
    (0x20, 0x80, 0x01, 0x0C, 350),
    (0x40, 0x80, 0x02, 0x0C, 350),
    (0x40, 0x20, 0x02, 0x09, 300),
    (0x08, 0x02, 0x02, 0x09, 300),
    (0x04, 0x02, 0x02, 0x09, 300),
    (0x04, 0x08, 0x04, 0x09, 300),
    (0x02, 0x08, 0x04, 0x03, 300),
    (0x08, 0x04, 0x08, 0x03, 300),
    (0x82, 0x24, 0x00, 0x00, 300) ]

/-- `LEDpairs[i]`; the array is declared `[20][5]`, rows 11..19 are zero-initialised. -/
def LEDpairs (i : Nat) : Nat × Nat × Nat × Nat × Nat :=
  LEDpairsRows.getD i (0, 0, 0, 0, 0)

/-- `nodePairs[5][2]`: the two pads of each step. -/
def nodePairs : Fin 5 → Fin 8 × Fin 8 :=
  ![(1, 0), (3, 2), (5, 4), (5, 7), (4, 6)]

/-- The table `touchLEDcorrespondence[5]` as written in the sketch. -/
def touchLEDcorrespondenceTable : List Nat := [0, 1, 3, 6, 9]

/-- `touchLEDcorrespondence[c]` for an `int` index `c`.  The sketch only evaluates it
after `c >= 0`; an index outside `0..4` is never read and yields `0` here. -/
def touchLEDcorrespondence (c : Int) : Nat :=
  touchLEDcorrespondenceTable.getD c.toNat 0

/-- `const bool haltUntilFirstTouch = true`. -/
def haltUntilFirstTouch : Bool := true

/-- `long node_threshold = 170`. -/
def node_threshold : Int := 170

/-! ## State -/

/-- An output of the sketch. -/
inductive Event where
  /-- `sendMessage(startReg, message1, message2)`: one bus transmission to device 0x20. -/
  | wire (reg m1 m2 : Nat)
  /-- `digitalWrite(unlockedLed, level)`. -/
  | pin (level : Bool)
  deriving DecidableEq, Repr

/-- The module-level variables of `swipeFridgeMonsterClass3.cpp`, the level of the
unlock output pin, and the outputs produced so far (newest first). -/
structure State where
  started : Bool
  fridgeUnlocked : Bool
  touchedNodes : Fin 8 → Bool
  stepsCompleted : Fin 5 → Bool
  revertTo0 : Bool
  previousCycle : Int
  cycleCount : Int
  unlockedLedPin : Bool
  log : List Event

/-- The values of the module-level variables at power-on. -/
def init : State where
  started := false
  fridgeUnlocked := false
  touchedNodes := fun _ => false
  stepsCompleted := fun _ => false
  revertTo0 := false
  previousCycle := -1
  cycleCount := 0
  unlockedLedPin := false
  log := []

/-- One sample of the eight capacitive sensors (`nodes[i].capacitiveSensor(NODE_SAMPLES)`). -/
abbrev Readings := Fin 8 → Int

/-! ## The functions of `swipeFridgeMonsterClass3.cpp` -/

/-- `sendMessage(startReg, message1, message2)`. -/
def sendMessage (reg m1 m2 : Nat) (s : State) : State :=
  { s with log := Event.wire reg m1 m2 :: s.log }

/-- `setup()`: both bus transmissions (all pins output, all pins low). -/
def setup (s : State) : State :=
  sendMessage GP0 0x00 0x00 (sendMessage IODIR0 0x00 0x00 s)

/-- `lightLEDpair(i)`. -/
def lightLEDpair (i : Nat) (s : State) : State :=
  let row := LEDpairs i
  sendMessage IODIR0 row.2.1 row.2.2.2.1 (sendMessage GP0 row.1 row.2.2.1 s)

/-- `killLEDs()`. -/
def killLEDs (s : State) : State :=
  sendMessage GP0 0x00 0x00 s

/-- `unlock()`. -/
def unlock (s : State) : State :=
  { s with unlockedLedPin := true, log := Event.pin true :: s.log }

/-- `reInit()`. -/
def reInit (s : State) : State :=
  { s with
    started := false
    fridgeUnlocked := false
    touchedNodes := fun _ => false
    stepsCompleted := fun _ => false
    unlockedLedPin := false
    log := Event.pin false :: s.log
    cycleCount := 0 }

/-- The loop of `checkCompletion()`: counts leading completed steps, `break` on the
first one that is not completed. -/
def countLeading (sc : Fin 5 → Bool) : List (Fin 5) → Int → Int
  | [], total => total
  | i :: rest, total => if sc i then countLeading sc rest (total + 1) else total

/-- `checkCompletion()`: the new state and the returned `int`. -/
def checkCompletion (s : State) : State × Int :=
  let totalStepsCompleted := countLeading s.stepsCompleted (List.finRange 5) 0
  let s1 := if totalStepsCompleted = 5 then { s with fridgeUnlocked := true } else s
  (s1, totalStepsCompleted - 1)

/-- One iteration of the first loop of `checkNodes()`. -/
def checkNodesBody (r : Readings) (s : State) (i : Fin 8) : State :=
  if r i > node_threshold then
    { s with touchedNodes := Function.update s.touchedNodes i true, cycleCount := 0 }
  else s

/-- `checkNodes()` with the sensor sample `r`. -/
def checkNodes (r : Readings) (s : State) : State :=
  (List.finRange 8).foldl (checkNodesBody r) s

/-- `stepsCompleted[i-1]` as read in `checkSequence()`.  For `i == 0` the sketch reads one
element before the array; the value read is discarded by the `|| i==0` that follows, and
is `false` here. -/
def prevStep (sc : Fin 5 → Bool) (i : Fin 5) : Bool :=
  if h : i.val = 0 then false else sc ⟨i.val - 1, by omega⟩

/-- `touchedNodes[nodePairs[i][0]] && touchedNodes[nodePairs[i][1]]`. -/
def pairTouched (t : Fin 8 → Bool) (i : Fin 5) : Bool :=
  t (nodePairs i).1 && t (nodePairs i).2

/-- One iteration of the first loop of `checkSequence()` on `stepsCompleted` and
`stepComplete`. -/
def checkSequenceBody (t : Fin 8 → Bool) (acc : (Fin 5 → Bool) × Int) (i : Fin 5) :
    (Fin 5 → Bool) × Int :=
  if (prevStep acc.1 i || decide (i.val = 0)) && pairTouched t i then
    (Function.update acc.1 i true, (i.val : Int))
  else acc

/-- One iteration of the second loop of `checkSequence()`. -/
def clearBody (t : Fin 8 → Bool) (i : Fin 8) : Fin 8 → Bool :=
  if t i then Function.update t i false else t

/-- The first loop of `checkSequence()`, started with `stepComplete = -1`: the new
`stepsCompleted` and the final `stepComplete`. -/
def checkSequenceLoop (t : Fin 8 → Bool) (sc : Fin 5 → Bool) : (Fin 5 → Bool) × Int :=
  (List.finRange 5).foldl (checkSequenceBody t) (sc, -1)

/-- The second loop of `checkSequence()`. -/
def clearTouched (t : Fin 8 → Bool) : Fin 8 → Bool :=
  (List.finRange 8).foldl clearBody t

/-- `checkSequence()`: the new state and the returned `int`. -/
def checkSequence (s : State) : State × Int :=
  let r := checkSequenceLoop s.touchedNodes s.stepsCompleted
  ({ s with stepsCompleted := r.1, touchedNodes := clearTouched s.touchedNodes }, r.2)

/-! ## `checkSequence()` of `swipeFridgeMonsterClass.cpp` -/

/-- The `if`/`else if` chain of the older sketch on `stepsCompleted`. -/
def checkSequenceOldSteps (t : Fin 8 → Bool) (sc : Fin 5 → Bool) : Fin 5 → Bool :=
  if !sc 0 then (if t 1 && t 0 then Function.update sc 0 true else sc)
  else if !sc 1 then (if t 3 && t 2 then Function.update sc 1 true else sc)
  else if !sc 2 then (if t 5 && t 4 then Function.update sc 2 true else sc)
  else if !sc 3 then (if t 5 && t 7 then Function.update sc 3 true else sc)
  else if !sc 4 then (if t 4 && t 6 then Function.update sc 4 true else sc)
  else sc

/-- `checkSequence()` of `swipeFridgeMonsterClass.cpp` (it returns `void`). -/
def checkSequenceOld (s : State) : State :=
  { s with stepsCompleted := checkSequenceOldSteps s.touchedNodes s.stepsCompleted,
           touchedNodes := clearTouched s.touchedNodes }

/-! ## `loop()` of `swipeFridgeMonsterClass3.cpp` -/

/-- What one pass through the body of the inner `for(int j=0;j<25;j++)` leaves behind:
the state, the loop variable `i` of the outer loop, the local `completedStep`, and whether
the pass ended in the `break` of the revert branch. -/
structure TickOut where
  s : State
  i : Nat
  completedStep : Int
  broke : Bool

/-- One pass through the body of the inner loop with the sensor sample `r`.  The `delay`
at the end of the pass has no effect on the state. -/
def innerTick (r : Readings) (i : Nat) (s : State) : TickOut :=
  let s1 := if s.fridgeUnlocked then unlock s else s
  let s2 := checkNodes r s1
  let (s3, completedStep) := checkSequence s2
  if completedStep ≥ 0 ∧ completedStep ≠ s3.previousCycle ∧
      touchLEDcorrespondence completedStep < i + 1 then
    let s4 := { s3 with previousCycle := completedStep }
    let i1 := touchLEDcorrespondence completedStep
    let s5 := if i1 = 0 then { s4 with revertTo0 := true } else s4
    ⟨s5, i1, completedStep, true⟩
  else
    ⟨{ s3 with previousCycle := completedStep }, i, completedStep, false⟩

/-- The inner loop: at most `n` passes, the pass number `t` of the whole run selects the
sensor sample.  Returns the state, `i` and the number of samples taken so far. -/
def innerLoop (sens : Nat → Readings) : Nat → Nat → Nat → State → State × Nat × Nat
  | 0, t, i, s => (s, i, t)
  | n + 1, t, i, s =>
    let o := innerTick (sens t) i s
    if o.broke then (o.s, o.i, t + 1) else innerLoop sens n (t + 1) o.i o.s

/-- The head of the body of the outer loop, up to and including `lightLEDpair(i)`:
idle counting at `i == 0`, the stall on frame 0, the kill write and the frame write.
Returns the state and the index of the frame that was lit. -/
def frameHead (s : State) (i : Nat) : State × Nat :=
  let s1 := if i = 0 then
      (if s.cycleCount < 4 then { s with cycleCount := s.cycleCount + 1 } else reInit s)
    else s
  let (s2, c) := checkCompletion s1
  let i1 := if c = -1 ∧ haltUntilFirstTouch = true then 0 else i
  (lightLEDpair i1 (killLEDs s2), i1)

/-- The blink animation after a successful unlock (the delays have no effect on the state). -/
def blink (s : State) : State :=
  let once := fun (x : State) => lightLEDpair 10 (killLEDs x)
  once (once (once (lightLEDpair 10 s)))

/-- The tail of the body of the outer loop, after the inner loop.  `none` stands for the
`break` out of the outer loop, `some i` for falling through to the `i++`. -/
def frameTail (s : State) (i : Nat) : State × Option Nat :=
  if s.revertTo0 then ({ s with revertTo0 := false }, none)
  else if s.fridgeUnlocked then (reInit (blink s), none)
  else (s, some i)

/-- The start of `loop()`. -/
def loopEntry (s : State) : State :=
  if !s.started then { s with started := true } else s

/-- The `i++` and the test `i<11` of the outer loop.  When the loop is left (by `break` or
by the test), `loop()` returns, the Arduino core calls it again and the outer loop starts
with `i = 0`. -/
def forNext (s : State) (r : Option Nat) : State × Nat :=
  match r with
  | some i => if i + 1 < 11 then (s, i + 1) else (loopEntry s, 0)
  | none => (loopEntry s, 0)

/-- From the end of the inner loop to the next frame that the outer loop lights. -/
def afterInner (s : State) (i : Nat) : State × Nat :=
  let (s1, r) := frameTail s i
  let (s2, i2) := forNext s1 r
  frameHead s2 i2

/-- The control state of the sketch between two frames: frame `i` has just been lit by
line 163 and the inner loop is about to start; `tick` samples have been taken. -/
structure Machine where
  s : State
  i : Nat
  tick : Nat

/-- Power-on: `setup()`, the first call of `loop()`, the head of its first frame. -/
def powerOn : Machine :=
  let (s, i) := frameHead (loopEntry (setup init)) 0
  ⟨s, i, 0⟩

/-- One frame: the inner loop, then on to the next frame lit. -/
def frameStep (sens : Nat → Readings) (m : Machine) : Machine :=
  let (s1, i1, t1) := innerLoop sens 25 m.tick m.i m.s
  let (s2, i2) := afterInner s1 i1
  ⟨s2, i2, t1⟩

/-- The machine after `n` frames with the sensor samples `sens`. -/
def run (sens : Nat → Readings) : Nat → Machine
  | 0 => powerOn
  | n + 1 => frameStep sens (run sens n)

/-! ## Properties used in the statements -/

/-- No step `k+1` is completed while step `k` is not. -/
def IsPrefix (sc : Fin 5 → Bool) : Prop :=
  ∀ k : Fin 4, sc k.succ = true → sc k.castSucc = true

instance (sc : Fin 5 → Bool) : Decidable (IsPrefix sc) := by
  unfold IsPrefix; infer_instance

/-- One tick of the sequence tracker on its own: `touchedNodes` holds the touch set `t` of
the tick when `checkSequence()` runs. -/
def trackerTick (s : State) (t : Fin 8 → Bool) : State :=
  (checkSequence { s with touchedNodes := t }).1

/-- The same for `checkSequence()` of `swipeFridgeMonsterClass.cpp`. -/
def trackerTickOld (s : State) (t : Fin 8 → Bool) : State :=
  checkSequenceOld { s with touchedNodes := t }

/-- The tracker after the ticks with touch sets `ts`, started in `s`. -/
def trackerRun (s : State) (ts : List (Fin 8 → Bool)) : State :=
  ts.foldl trackerTick s

/-- Both pads of the pair of step `k` are in the touch set of tick `t` of `ts`. -/
def touchedAt (ts : List (Fin 8 → Bool)) (t : Nat) (k : Fin 5) : Bool :=
  pairTouched (ts.getD t (fun _ => false)) k

/-- The pairs of steps `0..k` were touched in this order at ticks of `ts`, the last of them
at a tick `<= b` (two pairs may be touched at the same tick). -/
def InOrder (ts : List (Fin 8 → Bool)) : Nat → Nat → Prop
  | 0, b => ∃ t, t ≤ b ∧ touchedAt ts t 0 = true
  | k + 1, b => ∃ t, t ≤ b ∧ (∃ h : k + 1 < 5, touchedAt ts t ⟨k + 1, h⟩ = true) ∧ InOrder ts k t

/-- The touch set in which exactly the pads `a` and `b` are touched. -/
def touchPads (a b : Fin 8) : Fin 8 → Bool :=
  fun k => decide (k = a) || decide (k = b)

/-- Exactly the steps `0..n-1` are completed. -/
def stepsUpTo (n : Nat) : Fin 5 → Bool :=
  fun k => decide (k.val < n)

/-- The power-on state with `stepsCompleted` and `touchedNodes` replaced. -/
def stateWith (sc : Fin 5 → Bool) (t : Fin 8 → Bool) : State :=
  { init with stepsCompleted := sc, touchedNodes := t }

/-- A sensor sample in which exactly the pads `a` and `b` read above the threshold. -/
def readPads (a b : Fin 8) : Readings :=
  fun k => if k = a ∨ k = b then 1000 else 0

/-- A sensor sample in which no pad reads above the threshold. -/
def readNone : Readings :=
  fun _ => 0

/-- Sensor samples of a run: the pads 1 and 0 are touched at the first tick, nothing after. -/
def sensFirstTouch : Nat → Readings :=
  fun t => if t = 0 then readPads 1 0 else readNone

/-- A state with the steps 0..3 completed and step 4 open, as `loop()` has it while frame 9
is lit: the previous tick reported step 3, one pass of the outer loop has been counted. -/
def beforeLastStep : State :=
  { init with
    started := true
    stepsCompleted := stepsUpTo 4
    previousCycle := 3
    cycleCount := 1 }

/-- A state with step 0 completed and the steps 1..4 open, as `loop()` has it while frame 5
is lit: the last report was step 0, no report since. -/
def afterFirstStep : State :=
  { init with
    started := true
    stepsCompleted := stepsUpTo 1
    previousCycle := -1
    cycleCount := 1 }

/-- Sensor samples of a run in which no pad ever reads above the threshold. -/
def sensNone : Nat → Readings :=
  fun _ => readNone

/-- The state of the stalled sketch: nothing completed, frame 0 lit, one pass counted. -/
def Stalled (s : State) (i : Nat) : Prop :=
  (∀ k, s.stepsCompleted k = false) ∧ (∀ p, s.touchedNodes p = false) ∧ i = 0 ∧
    s.cycleCount = 1 ∧ s.fridgeUnlocked = false ∧ s.revertTo0 = false ∧
    s.previousCycle = -1 ∧ s.unlockedLedPin = false

/-- The block at `i == 0` at the start of the body of the outer loop (lines 154-158):
the idle counter is incremented below the bound 4, `reInit()` runs otherwise. -/
def passStart (s : State) (i : Nat) : State :=
  if i = 0 then
    (if s.cycleCount < 4 then { s with cycleCount := s.cycleCount + 1 } else reInit s)
  else s

/-- A state at the end of the last frame before the animation: all steps completed, the
lock unlocked and the unlock output high. -/
def unlockedState : State :=
  { init with
    started := true
    fridgeUnlocked := true
    stepsCompleted := stepsUpTo 5
    previousCycle := 4
    cycleCount := 1
    unlockedLedPin := true
    log := [Event.pin true] }

/-- Sensor samples of a run that unlocks and then keeps the first pair touched: the five
pairs are touched in order at the ticks 0..4, one pair per tick, and from tick 5 on the pads
1 and 0 are touched. -/
def sensRelock : Nat → Readings :=
  fun t =>
    if t = 0 then readPads 1 0
    else if t = 1 then readPads 3 2
    else if t = 2 then readPads 5 4
    else if t = 3 then readPads 5 7
    else if t = 4 then readPads 4 6
    else readPads 1 0

/-- A state right after `checkCompletion()` has set `fridgeUnlocked` at the head of a frame:
all steps completed, the unlock output still low. -/
def justUnlocked : State :=
  { init with
    started := true
    fridgeUnlocked := true
    stepsCompleted := stepsUpTo 5
    previousCycle := 4
    cycleCount := 1 }

/-- The writes to the I/O expander among the outputs `log` (newest first). -/
def expanderWrites (log : List Event) : List Event :=
  log.filter (fun e => match e with
    | Event.wire _ _ _ => true
    | Event.pin _ => false)

/-- The writes to the I/O expander of the animation, newest first: frame 10, then three
times the kill write and frame 10. -/
def blinkWrites : List Event :=
  [Event.wire IODIR0 0x24 0x00, Event.wire GP0 0x82 0x00, Event.wire GP0 0 0,
    Event.wire IODIR0 0x24 0x00, Event.wire GP0 0x82 0x00, Event.wire GP0 0 0,
    Event.wire IODIR0 0x24 0x00, Event.wire GP0 0x82 0x00, Event.wire GP0 0 0,
    Event.wire IODIR0 0x24 0x00, Event.wire GP0 0x82 0x00]

/-! ## Auxiliary lemmas: loops -/


theorem foldl_invariant {α β : Type} (P : β → Prop) (f : β → α → β)
    (hf : ∀ b a, P b → P (f b a)) : ∀ (l : List α) (b : β), P b → P (l.foldl f b)
  | [], _, hb => hb
  | a :: l, b, hb => foldl_invariant P f hf l (f b a) (hf b a hb)

theorem clear_foldl (l : List (Fin 8)) : ∀ (t : Fin 8 → Bool) (k : Fin 8),
    (l.foldl clearBody t) k = (t k && !decide (k ∈ l)) := by
  induction l with
  | nil => intro t k; simp
  | cons a l ih =>
    intro t k
    rw [List.foldl_cons, ih]
    unfold clearBody
    by_cases hka : k = a
    · subst hka; cases h : t k <;> simp [h]
    · cases h : t a <;> simp [h, hka, Function.update_noteq hka]

theorem clear_all (t : Fin 8 → Bool) : clearTouched t = fun _ => false := by
  unfold clearTouched
  funext k
  rw [clear_foldl]
  simp [List.mem_finRange]

theorem checkNodes_foldl (r : Readings) (l : List (Fin 8)) : ∀ (s : State),
    l.foldl (checkNodesBody r) s =
      { s with
        touchedNodes := fun k => s.touchedNodes k || decide (k ∈ l ∧ r k > node_threshold)
        cycleCount := if ∃ k ∈ l, r k > node_threshold then 0 else s.cycleCount } := by
  induction l with
  | nil => intro s; simp
  | cons a l ih =>
    intro s
    rw [List.foldl_cons, ih]
    unfold checkNodesBody
    by_cases ha : r a > node_threshold
    · simp only [ha, if_true]
      congr 1
      · funext k
        by_cases hka : k = a
        · subst hka; simp [ha]
        · simp [Function.update_noteq hka, hka]
      · simp [ha]
    · simp only [ha, if_false]
      congr 1
      · funext k
        by_cases hka : k = a
        · subst hka; simp [ha]
        · simp [hka]
      · simp [ha]




theorem checkNodes_eq (r : Readings) (s : State) :
    checkNodes r s =
      { s with
        touchedNodes := fun k => s.touchedNodes k || decide (r k > node_threshold)
        cycleCount := if ∃ k, r k > node_threshold then 0 else s.cycleCount } := by
  unfold checkNodes
  rw [checkNodes_foldl]
  simp [List.mem_finRange]

theorem prevStep_succ (sc : Fin 5 → Bool) (k : Fin 4) : prevStep sc k.succ = sc k.castSucc := by
  unfold prevStep
  simp [Fin.castSucc]
  rfl

theorem isPrefix_update (sc : Fin 5 → Bool) (i : Fin 5) (h : IsPrefix sc)
    (hp : (prevStep sc i || decide (i.val = 0)) = true) : IsPrefix (Function.update sc i true) := by
  intro k hk
  by_cases h1 : k.castSucc = i
  · rw [h1, Function.update_same]
  · rw [Function.update_noteq h1]
    by_cases h2 : k.succ = i
    · subst h2
      rw [prevStep_succ] at hp
      simpa using hp
    · rw [Function.update_noteq h2] at hk
      exact h k hk

theorem body_prefix_kept (t : Fin 8 → Bool) (acc : (Fin 5 → Bool) × Int) (i : Fin 5)
    (h : IsPrefix acc.1) : IsPrefix (checkSequenceBody t acc i).1 := by
  unfold checkSequenceBody
  split
  · rename_i hc
    simp only [Bool.and_eq_true] at hc
    exact isPrefix_update _ _ h hc.1
  · exact h

theorem body_mono (t : Fin 8 → Bool) (acc : (Fin 5 → Bool) × Int) (i k : Fin 5)
    (h : acc.1 k = true) : (checkSequenceBody t acc i).1 k = true := by
  unfold checkSequenceBody
  split
  · by_cases hk : k = i
    · subst hk; simp
    · simpa [Function.update_noteq hk] using h
  · exact h

theorem seq_prefix_kept (t : Fin 8 → Bool) (l : List (Fin 5)) (acc : (Fin 5 → Bool) × Int)
    (h : IsPrefix acc.1) : IsPrefix (l.foldl (checkSequenceBody t) acc).1 :=
  foldl_invariant (fun a => IsPrefix a.1) _ (fun b a hb => body_prefix_kept t b a hb) l acc h

theorem seq_mono (t : Fin 8 → Bool) (l : List (Fin 5)) (acc : (Fin 5 → Bool) × Int) (k : Fin 5)
    (h : acc.1 k = true) : (l.foldl (checkSequenceBody t) acc).1 k = true :=
  foldl_invariant (fun a => a.1 k = true) _ (fun b a hb => body_mono t b a k hb) l acc h

theorem prevStep_lit (sc : Fin 5 → Bool) :
    prevStep sc 0 = false ∧ prevStep sc 1 = sc 0 ∧ prevStep sc 2 = sc 1 ∧
      prevStep sc 3 = sc 2 ∧ prevStep sc 4 = sc 3 :=
  ⟨rfl, rfl, rfl, rfl, rfl⟩

theorem old_prefix_kept (t : Fin 8 → Bool) (sc : Fin 5 → Bool) (h : IsPrefix sc) :
    IsPrefix (checkSequenceOldSteps t sc) := by
  unfold checkSequenceOldSteps
  split_ifs <;> first
    | exact h
    | (apply isPrefix_update _ _ h; simp only [prevStep_lit]; simp_all)

theorem old_mono (t : Fin 8 → Bool) (sc : Fin 5 → Bool) (k : Fin 5) (h : sc k = true) :
    checkSequenceOldSteps t sc k = true := by
  unfold checkSequenceOldSteps
  split_ifs <;> first
    | exact h
    | (simp only [Function.update_apply]; split <;> simp_all)





theorem innerTick_eq (r : Readings) (i : Nat) (s : State) :
    innerTick r i s =
      (let p := checkSequenceLoop (fun k => s.touchedNodes k || decide (r k > node_threshold))
          s.stepsCompleted
       let rev := decide (p.2 ≥ 0 ∧ p.2 ≠ s.previousCycle ∧ touchLEDcorrespondence p.2 < i + 1)
       (⟨{ started := s.started
           fridgeUnlocked := s.fridgeUnlocked
           touchedNodes := fun _ => false
           stepsCompleted := p.1
           revertTo0 := s.revertTo0 || (rev && decide (touchLEDcorrespondence p.2 = 0))
           previousCycle := p.2
           cycleCount := if ∃ k, r k > node_threshold then 0 else s.cycleCount
           unlockedLedPin := s.unlockedLedPin || s.fridgeUnlocked
           log := if s.fridgeUnlocked then Event.pin true :: s.log else s.log },
         if rev then touchLEDcorrespondence p.2 else i, p.2, rev⟩ : TickOut)) := by
  unfold innerTick
  cases hu : s.fridgeUnlocked <;>
    simp only [checkNodes_eq, unlock, checkSequence, clear_all, if_true, if_false, Bool.false_eq_true] <;>
    generalize checkSequenceLoop (fun k => s.touchedNodes k || decide (r k > node_threshold))
      s.stepsCompleted = p <;>
    by_cases hc : p.2 ≥ 0 ∧ p.2 ≠ s.previousCycle ∧ touchLEDcorrespondence p.2 < i + 1
  · rw [if_pos hc, decide_eq_true hc]
    by_cases h0 : touchLEDcorrespondence p.2 = 0 <;> simp [h0, hu]
  · rw [if_neg hc, decide_eq_false hc]
    simp [hu]
  · rw [if_pos hc, decide_eq_true hc]
    by_cases h0 : touchLEDcorrespondence p.2 = 0 <;> simp [h0, hu]
  · rw [if_neg hc, decide_eq_false hc]
    simp [hu]

/-! ## Auxiliary lemmas: invariants of the machine -/

theorem innerLoop_invariant (P : State → Nat → Prop) (sens : Nat → Readings)
    (hT : ∀ r i s, P s i → P (innerTick r i s).s (innerTick r i s).i) :
    ∀ (n t i : Nat) (s : State), P s i →
      P (innerLoop sens n t i s).1 (innerLoop sens n t i s).2.1
  | 0, _, _, _, h => h
  | n + 1, t, i, s, h => by
    unfold innerLoop
    simp only
    split
    · exact hT _ _ _ h
    · exact innerLoop_invariant P sens hT n (t + 1) _ _ (hT _ _ _ h)

theorem run_invariant (P : State → Nat → Prop) (sens : Nat → Readings)
    (h0 : P powerOn.s powerOn.i)
    (hT : ∀ r i s, P s i → P (innerTick r i s).s (innerTick r i s).i)
    (hA : ∀ s i, P s i → P (afterInner s i).1 (afterInner s i).2) :
    ∀ n, P (run sens n).s (run sens n).i
  | 0 => h0
  | n + 1 => by
    unfold run frameStep
    exact hA _ _ (innerLoop_invariant P sens hT 25 _ _ _ (run_invariant P sens h0 hT hA n))

theorem checkCompletion_stepsCompleted (s : State) :
    (checkCompletion s).1.stepsCompleted = s.stepsCompleted := by
  unfold checkCompletion
  simp only
  split <;> rfl

theorem isPrefix_false : IsPrefix (fun _ => false) := by
  intro k hk; simp at hk

theorem frameHead_prefix_kept (s : State) (i : Nat) (h : IsPrefix s.stepsCompleted) :
    IsPrefix (frameHead s i).1.stepsCompleted := by
  unfold frameHead
  simp only [lightLEDpair, killLEDs, sendMessage, checkCompletion_stepsCompleted]
  split
  · split
    · exact h
    · exact isPrefix_false
  · exact h

theorem afterInner_prefix_kept (s : State) (i : Nat) (h : IsPrefix s.stepsCompleted) :
    IsPrefix (afterInner s i).1.stepsCompleted := by
  unfold afterInner frameTail
  split_ifs
  · simp only [forNext]
    apply frameHead_prefix_kept
    unfold loopEntry
    split <;> exact h
  · simp only [forNext]
    apply frameHead_prefix_kept
    unfold loopEntry
    split <;> exact isPrefix_false
  · simp only [forNext]
    split
    · exact frameHead_prefix_kept _ _ h
    · apply frameHead_prefix_kept
      unfold loopEntry
      split <;> exact h

theorem loop_prefix_kept (t : Fin 8 → Bool) (sc : Fin 5 → Bool) (h : IsPrefix sc) :
    IsPrefix (checkSequenceLoop t sc).1 :=
  seq_prefix_kept t _ (sc, -1) h

theorem loop_mono (t : Fin 8 → Bool) (sc : Fin 5 → Bool) (k : Fin 5) (h : sc k = true) :
    (checkSequenceLoop t sc).1 k = true :=
  seq_mono t _ (sc, -1) k h

theorem innerTick_prefix_kept (r : Readings) (i : Nat) (s : State) (h : IsPrefix s.stepsCompleted) :
    IsPrefix (innerTick r i s).s.stepsCompleted := by
  rw [innerTick_eq]
  exact loop_prefix_kept _ _ h

theorem powerOn_prefix_kept : IsPrefix powerOn.s.stepsCompleted := by
  apply frameHead_prefix_kept
  exact isPrefix_false

theorem run_prefix_kept (sens : Nat → Readings) (n : Nat) : IsPrefix (run sens n).s.stepsCompleted :=
  run_invariant (fun s _ => IsPrefix s.stepsCompleted) sens powerOn_prefix_kept
    (fun r i s h => innerTick_prefix_kept r i s h) (fun s i h => afterInner_prefix_kept s i h) n

/-! ## C1 -/

/-- C1: `checkSequence()` of both sketches maps a contiguous prefix of completed steps to a
contiguous prefix and keeps every completed step completed; `reInit()` yields the empty
prefix; hence `stepsCompleted` is a contiguous prefix after every frame of every run from
power-on, after every tick of an inner loop started in a prefix state, and after any sequence
of ticks of either tracker from the power-on state. -/
theorem checkSequence_prefix_kept :
    (∀ s : State, IsPrefix s.stepsCompleted →
      IsPrefix (checkSequence s).1.stepsCompleted ∧
      (∀ k, s.stepsCompleted k = true → (checkSequence s).1.stepsCompleted k = true) ∧
      IsPrefix (checkSequenceOld s).stepsCompleted ∧
      (∀ k, s.stepsCompleted k = true → (checkSequenceOld s).stepsCompleted k = true)) ∧
    (∀ s : State, IsPrefix (reInit s).stepsCompleted ∧ ∀ k, (reInit s).stepsCompleted k = false) ∧
    (∀ (sens : Nat → Readings) (n : Nat), IsPrefix (run sens n).s.stepsCompleted) ∧
    (∀ (sens : Nat → Readings) (n t i : Nat) (s : State), IsPrefix s.stepsCompleted →
      IsPrefix (innerLoop sens n t i s).1.stepsCompleted) ∧
    (∀ ts : List (Fin 8 → Bool), IsPrefix (trackerRun init ts).stepsCompleted ∧
      IsPrefix (ts.foldl trackerTickOld init).stepsCompleted) :=
  ⟨fun _ h => ⟨loop_prefix_kept _ _ h, fun k hk => loop_mono _ _ k hk,
      old_prefix_kept _ _ h, fun k hk => old_mono _ _ k hk⟩,
    fun _ => ⟨isPrefix_false, fun _ => rfl⟩,
    run_prefix_kept,
    fun sens n t i s h => innerLoop_invariant (fun s _ => IsPrefix s.stepsCompleted) sens
      (fun r i s h => innerTick_prefix_kept r i s h) n t i s h,
    fun ts =>
      ⟨foldl_invariant (fun s => IsPrefix s.stepsCompleted) trackerTick
          (fun s t h => loop_prefix_kept t s.stepsCompleted h) ts init isPrefix_false,
        foldl_invariant (fun s => IsPrefix s.stepsCompleted) trackerTickOld
          (fun s t h => old_prefix_kept t s.stepsCompleted h) ts init isPrefix_false⟩⟩

/-- C1 at a concrete state: steps 0 and 1 completed, pads 5 and 4 touched. -/
theorem checkSequence_prefix_kept_witness :
    IsPrefix ![true, true, false, false, false] ∧
    IsPrefix (checkSequence { init with
      stepsCompleted := ![true, true, false, false, false]
      touchedNodes := ![false, false, false, false, true, true, false, false] }).1.stepsCompleted :=
  ⟨by decide, (checkSequence_prefix_kept.1 { init with
      stepsCompleted := ![true, true, false, false, false]
      touchedNodes := ![false, false, false, false, true, true, false, false] } (by decide)).1⟩

/-! ## C2 -/

theorem touchedAt_lt (ts : List (Fin 8 → Bool)) (t : Nat) (k : Fin 5)
    (h : touchedAt ts t k = true) : t < ts.length := by
  by_contra hlt
  have : ts.getD t (fun _ => false) = fun _ => false := by
    simp [List.getD_eq_getElem?_getD, List.getElem?_eq_none (Nat.le_of_not_lt hlt)]
  unfold touchedAt at h
  rw [this] at h
  simp [pairTouched] at h

theorem touchedAt_append (ts : List (Fin 8 → Bool)) (T : Fin 8 → Bool) (t : Nat) (k : Fin 5)
    (h : touchedAt ts t k = true) : touchedAt (ts ++ [T]) t k = true := by
  have hlt := touchedAt_lt ts t k h
  unfold touchedAt at *
  simpa [List.getD_eq_getElem?_getD, List.getElem?_append_left hlt] using h

theorem touchedAt_last (ts : List (Fin 8 → Bool)) (T : Fin 8 → Bool) (k : Fin 5)
    (h : pairTouched T k = true) : touchedAt (ts ++ [T]) ts.length k = true := by
  unfold touchedAt
  simpa [List.getD_eq_getElem?_getD] using h

theorem inOrder_append (ts : List (Fin 8 → Bool)) (T : Fin 8 → Bool) :
    ∀ (k b : Nat), InOrder ts k b → InOrder (ts ++ [T]) k b
  | 0, _, ⟨t, hb, ht⟩ => ⟨t, hb, touchedAt_append ts T t 0 ht⟩
  | k + 1, _, ⟨t, hb, ⟨hk, ht⟩, hrest⟩ =>
    ⟨t, hb, ⟨hk, touchedAt_append ts T t _ ht⟩, inOrder_append ts T k t hrest⟩

theorem inOrder_bound (ts : List (Fin 8 → Bool)) :
    ∀ (k b : Nat), InOrder ts k b → InOrder ts k (ts.length - 1)
  | 0, _, ⟨t, _, ht⟩ => ⟨t, by have := touchedAt_lt ts t 0 ht; omega, ht⟩
  | _ + 1, _, ⟨t, _, ⟨hk, ht⟩, hrest⟩ =>
    ⟨t, by have := touchedAt_lt ts t _ ht; omega, ⟨hk, ht⟩, hrest⟩

theorem loop_induct (Q : Fin 5 → Prop) (T : Fin 8 → Bool)
    (hQ : ∀ i : Fin 5, pairTouched T i = true → (i.val = 0 ∨ (i.val ≠ 0 ∧ Q ⟨i.val - 1, by omega⟩)) → Q i)
    (l : List (Fin 5)) (acc : (Fin 5 → Bool) × Int) (hacc : ∀ k, acc.1 k = true → Q k) :
    ∀ k, (l.foldl (checkSequenceBody T) acc).1 k = true → Q k := by
  refine foldl_invariant (fun a => ∀ k, a.1 k = true → Q k) _ ?_ l acc hacc
  intro b i hb k
  unfold checkSequenceBody
  split
  · rename_i hc
    simp only [Bool.and_eq_true, Bool.or_eq_true, decide_eq_true_eq] at hc
    by_cases hk : k = i
    · subst hk
      intro _
      apply hQ k hc.2
      rcases hc.1 with h1 | h1
      · by_cases h0 : k.val = 0
        · exact Or.inl h0
        · right
          refine ⟨h0, hb _ ?_⟩
          simpa [prevStep, h0] using h1
      · exact Or.inl h1
    · simp only [Function.update_noteq hk]
      exact hb k
  · exact hb k

theorem trackerRun_inOrder (ts : List (Fin 8 → Bool)) :
    ∀ k : Fin 5, (trackerRun init ts).stepsCompleted k = true →
      InOrder ts k.val (ts.length - 1) := by
  induction ts using List.reverseRecOn with
  | nil => intro k hk; simp [trackerRun, init] at hk
  | append_singleton ts T ih =>
    intro k hk
    have hstep : (trackerRun init (ts ++ [T])).stepsCompleted =
        (checkSequenceLoop T (trackerRun init ts).stepsCompleted).1 := by
      simp [trackerRun, trackerTick, checkSequence, List.foldl_append]
    rw [hstep] at hk
    refine loop_induct (fun k => InOrder (ts ++ [T]) k.val ((ts ++ [T]).length - 1)) T ?_ _
      ((trackerRun init ts).stepsCompleted, -1) ?_ k hk
    · intro i hi hprev
      have hlen : (ts ++ [T]).length - 1 = ts.length := by simp
      rw [hlen]
      rcases i with ⟨iv, hiv⟩
      cases iv with
      | zero => exact ⟨ts.length, le_refl _, touchedAt_last ts T _ hi⟩
      | succ j =>
        rcases hprev with h0 | ⟨_, hq⟩
        · simp at h0
        · refine ⟨ts.length, le_refl _, ⟨hiv, touchedAt_last ts T _ hi⟩, ?_⟩
          simpa [hlen] using hq
    · intro j hj
      exact inOrder_bound _ _ _ (inOrder_append ts T _ _ (ih j hj))


theorem finRange_five : List.finRange 5 = [0, 1, 2, 3, 4] := by decide

theorem forall_fin5 (P : Fin 5 → Prop) : (∀ k, P k) ↔ P 0 ∧ P 1 ∧ P 2 ∧ P 3 ∧ P 4 := by
  constructor
  · intro h; exact ⟨h 0, h 1, h 2, h 3, h 4⟩
  · rintro ⟨h0, h1, h2, h3, h4⟩ k
    fin_cases k <;> assumption

theorem countLeading_eq (sc : Fin 5 → Bool) :
    countLeading sc (List.finRange 5) 0 =
      if sc 0 then (if sc 1 then (if sc 2 then (if sc 3 then (if sc 4 then 5 else 4) else 3)
        else 2) else 1) else 0 := by
  rw [finRange_five]
  simp only [countLeading]
  split_ifs <;> rfl

theorem countLeading_five (sc : Fin 5 → Bool) :
    countLeading sc (List.finRange 5) 0 = 5 ↔ ∀ k, sc k = true := by
  rw [countLeading_eq, forall_fin5]
  split_ifs <;> simp_all

theorem checkCompletion_fst (s : State) :
    (checkCompletion s).1 =
      if ∀ k, s.stepsCompleted k = true then { s with fridgeUnlocked := true } else s := by
  unfold checkCompletion
  simp only [countLeading_five]

theorem checkCompletion_snd (s : State) :
    (checkCompletion s).2 = countLeading s.stepsCompleted (List.finRange 5) 0 - 1 := rfl

theorem checkCompletion_minus_one (s : State) :
    (checkCompletion s).2 = -1 ↔ s.stepsCompleted 0 = false := by
  rw [checkCompletion_snd, countLeading_eq]
  split_ifs <;> simp_all

theorem checkCompletion_four (s : State) :
    (checkCompletion s).2 = 4 ↔ ∀ k, s.stepsCompleted k = true := by
  rw [checkCompletion_snd, ← countLeading_five]
  constructor <;> intro h <;> omega

/-- C2: from the power-on state, if after any finite sequence of per-tick touch sets processed
by `checkSequence()` the call of `checkCompletion()` sets `fridgeUnlocked`, then the five
pairs (1,0), (3,2), (5,4), (5,7), (4,6) were touched at ticks `t0 <= t1 <= t2 <= t3 <= t4`
of the sequence. -/
theorem unlock_needs_pairs_in_order (ts : List (Fin 8 → Bool))
    (h : (checkCompletion (trackerRun init ts)).1.fridgeUnlocked = true) :
    ∃ t0 t1 t2 t3 t4 : Nat, t0 ≤ t1 ∧ t1 ≤ t2 ∧ t2 ≤ t3 ∧ t3 ≤ t4 ∧ t4 < ts.length ∧
      (ts.getD t0 (fun _ => false) 1 = true ∧ ts.getD t0 (fun _ => false) 0 = true) ∧
      (ts.getD t1 (fun _ => false) 3 = true ∧ ts.getD t1 (fun _ => false) 2 = true) ∧
      (ts.getD t2 (fun _ => false) 5 = true ∧ ts.getD t2 (fun _ => false) 4 = true) ∧
      (ts.getD t3 (fun _ => false) 5 = true ∧ ts.getD t3 (fun _ => false) 7 = true) ∧
      (ts.getD t4 (fun _ => false) 4 = true ∧ ts.getD t4 (fun _ => false) 6 = true) := by
  have hall : ∀ k, (trackerRun init ts).stepsCompleted k = true := by
    by_contra hno
    rw [checkCompletion_fst, if_neg hno] at h
    have hinv : ∀ l : List (Fin 8 → Bool), (trackerRun init l).fridgeUnlocked = false := by
      intro l
      induction l using List.reverseRecOn with
      | nil => rfl
      | append_singleton l T ih =>
        simpa [trackerRun, trackerTick, checkSequence, List.foldl_append] using ih
    rw [hinv] at h
    cases h
  obtain ⟨t4, _, ⟨_, h4⟩, t3, h34, ⟨_, h3⟩, t2, h23, ⟨_, h2⟩, t1, h12, ⟨_, h1⟩, t0, h01, h0⟩ :=
    trackerRun_inOrder ts 4 (hall 4)
  refine ⟨t0, t1, t2, t3, t4, h01, h12, h23, h34, touchedAt_lt ts t4 _ h4, ?_, ?_, ?_, ?_, ?_⟩
  · simpa [touchedAt, pairTouched, nodePairs] using h0
  · simpa [touchedAt, pairTouched, nodePairs] using h1
  · simpa [touchedAt, pairTouched, nodePairs] using h2
  · simpa [touchedAt, pairTouched, nodePairs] using h3
  · simpa [touchedAt, pairTouched, nodePairs] using h4


/-- C2 at the touch sequence that touches the five pairs in order, one pair per tick. -/
theorem unlock_needs_pairs_in_order_witness :
    (checkCompletion (trackerRun init
      [touchPads 1 0, touchPads 3 2, touchPads 5 4, touchPads 5 7, touchPads 4 6])).1.fridgeUnlocked
      = true ∧
    ∃ t0 t1 t2 t3 t4 : Nat, t0 ≤ t1 ∧ t1 ≤ t2 ∧ t2 ≤ t3 ∧ t3 ≤ t4 ∧ t4 < 5 :=
  ⟨by decide,
    let ⟨t0, t1, t2, t3, t4, h01, h12, h23, h34, h4, _⟩ := unlock_needs_pairs_in_order
      [touchPads 1 0, touchPads 3 2, touchPads 5 4, touchPads 5 7, touchPads 4 6] (by decide)
    ⟨t0, t1, t2, t3, t4, h01, h12, h23, h34, h4⟩⟩

/-! ## C3 -/

theorem body_untouched (t : Fin 8 → Bool) (acc : (Fin 5 → Bool) × Int) (i : Fin 5)
    (h : pairTouched t i = false) : checkSequenceBody t acc i = acc := by
  simp [checkSequenceBody, h]

theorem foldl_none (t : Fin 8 → Bool) (l : List (Fin 5)) (h : ∀ i ∈ l, pairTouched t i = false) :
    ∀ acc, l.foldl (checkSequenceBody t) acc = acc := by
  induction l with
  | nil => intro acc; rfl
  | cons a l ih =>
    intro acc
    rw [List.foldl_cons, body_untouched t acc a (h a (List.mem_cons_self _ _))]
    exact ih (fun i hi => h i (List.mem_cons_of_mem _ hi)) acc

theorem loop_none (t : Fin 8 → Bool) (sc : Fin 5 → Bool) (h : ∀ i, pairTouched t i = false) :
    checkSequenceLoop t sc = (sc, -1) :=
  foldl_none t _ (fun i _ => h i) _

theorem foldl_single (t : Fin 8 → Bool) (j : Fin 5)
    (h : ∀ i, i ≠ j → pairTouched t i = false) (l : List (Fin 5)) :
    ∀ acc, l.foldl (checkSequenceBody t) acc =
      (l.filter (fun i => decide (i = j))).foldl (checkSequenceBody t) acc := by
  induction l with
  | nil => intro acc; rfl
  | cons a l ih =>
    intro acc
    by_cases ha : a = j
    · simp only [List.foldl_cons, List.filter_cons, ha, decide_True, if_true]
      exact ih _
    · simp only [List.foldl_cons, List.filter_cons, ha, decide_False, Bool.false_eq_true, if_false]
      rw [body_untouched t acc a (h a ha)]
      exact ih _

theorem loop_single (t : Fin 8 → Bool) (sc : Fin 5 → Bool) (j : Fin 5)
    (h : ∀ i, i ≠ j → pairTouched t i = false) :
    checkSequenceLoop t sc = checkSequenceBody t (sc, -1) j := by
  unfold checkSequenceLoop
  rw [foldl_single t j h, finRange_five]
  fin_cases j <;> rfl

theorem isPrefix_iff (sc : Fin 5 → Bool) :
    IsPrefix sc ↔ (sc 1 = true → sc 0 = true) ∧ (sc 2 = true → sc 1 = true) ∧
      (sc 3 = true → sc 2 = true) ∧ (sc 4 = true → sc 3 = true) := by
  constructor
  · intro h; exact ⟨h 0, h 1, h 2, h 3⟩
  · rintro ⟨h0, h1, h2, h3⟩ k
    fin_cases k <;> assumption


theorem prefix_below (sc : Fin 5 → Bool) (hp : IsPrefix sc) :
    ∀ k : Fin 5, (∀ j, j < k → sc j = true) ↔ (prevStep sc k || decide (k.val = 0)) = true := by
  rw [isPrefix_iff] at hp
  obtain ⟨h0, h1, h2, h3⟩ := hp
  rw [forall_fin5]
  refine ⟨?_, ?_, ?_, ?_, ?_⟩ <;> rw [forall_fin5] <;> simp [prevStep_lit] <;> tauto

/-- C3, as stated, fails: from the power-on state with the pads 0, 1, 2 and 3 touched, one
call of `checkSequence()` completes step 0 and step 1 and returns 1. -/
theorem checkSequence_completes_two_steps :
    IsPrefix init.stepsCompleted ∧
    init.stepsCompleted 0 = false ∧ init.stepsCompleted 1 = false ∧
    (checkSequence { init with
      touchedNodes := ![true, true, true, true, false, false, false, false] }).1.stepsCompleted 0
      = true ∧
    (checkSequence { init with
      touchedNodes := ![true, true, true, true, false, false, false, false] }).1.stepsCompleted 1
      = true ∧
    (checkSequence { init with
      touchedNodes := ![true, true, true, true, false, false, false, false] }).2 = 1 := by
  decide

/-- C3, amended: for a contiguous-prefix state and a touch set that holds both pads of at most
one of the five pairs, one call of `checkSequence()` turns at most one entry of
`stepsCompleted` from false to true; the entry that turns is the first not-yet-completed
step, it turns exactly when both pads of its pair are touched, and the call then returns
its index. -/
theorem checkSequence_single_pair (s : State) (hp : IsPrefix s.stepsCompleted)
    (hone : ∀ i j, pairTouched s.touchedNodes i = true → pairTouched s.touchedNodes j = true →
      i = j) :
    (∀ j k, s.stepsCompleted j = false → (checkSequence s).1.stepsCompleted j = true →
      s.stepsCompleted k = false → (checkSequence s).1.stepsCompleted k = true → j = k) ∧
    (∀ k, (s.stepsCompleted k = false ∧ (checkSequence s).1.stepsCompleted k = true) ↔
      (s.stepsCompleted k = false ∧ (∀ j, j < k → s.stepsCompleted j = true) ∧
        pairTouched s.touchedNodes k = true)) ∧
    (∀ k, s.stepsCompleted k = false → (checkSequence s).1.stepsCompleted k = true →
      (checkSequence s).2 = (k.val : Int)) := by
  have key : ∀ k, (s.stepsCompleted k = false ∧ (checkSequence s).1.stepsCompleted k = true) →
      (∀ j, j < k → s.stepsCompleted j = true) ∧ pairTouched s.touchedNodes k = true ∧
      (checkSequence s).2 = (k.val : Int) ∧
      (checkSequence s).1.stepsCompleted = Function.update s.stepsCompleted k true := by
    intro k ⟨hk0, hk1⟩
    by_cases hnone : ∀ i, pairTouched s.touchedNodes i = false
    · simp [checkSequence, loop_none _ _ hnone, hk0] at hk1
    · push_neg at hnone
      obtain ⟨j0, hj0⟩ := hnone
      simp only [Bool.not_eq_false] at hj0
      have hothers : ∀ i, i ≠ j0 → pairTouched s.touchedNodes i = false := by
        intro i hi
        by_contra hc
        simp only [Bool.not_eq_false] at hc
        exact hi (hone i j0 hc hj0)
      have hloop := loop_single s.touchedNodes s.stepsCompleted j0 hothers
      simp only [checkSequence, hloop, checkSequenceBody, hj0, Bool.and_true] at hk1 ⊢
      by_cases hc : (prevStep s.stepsCompleted j0 || decide (j0.val = 0)) = true
      · simp only [hc, if_true] at hk1 ⊢
        by_cases hkj : k = j0
        · subst hkj
          exact ⟨(prefix_below _ hp k).2 hc, hj0, rfl, rfl⟩
        · rw [Function.update_noteq hkj, hk0] at hk1
          cases hk1
      · simp only [hc] at hk1
        simp [hk0] at hk1
  refine ⟨?_, ?_, ?_⟩
  · intro j k hj0 hj1 hk0 hk1
    have e1 := (key j ⟨hj0, hj1⟩).2.2.2
    have e2 := (key k ⟨hk0, hk1⟩).2.2.2
    by_contra hne
    have : (checkSequence s).1.stepsCompleted j = s.stepsCompleted j := by
      rw [e2, Function.update_noteq hne]
    rw [this, hj0] at hj1
    cases hj1
  · intro k
    constructor
    · intro h
      exact ⟨h.1, (key k h).1, (key k h).2.1⟩
    · rintro ⟨hk0, hbelow, hpk⟩
      refine ⟨hk0, ?_⟩
      have hothers : ∀ i, i ≠ k → pairTouched s.touchedNodes i = false := by
        intro i hi
        by_contra hc
        simp only [Bool.not_eq_false] at hc
        exact hi (hone i k hc hpk)
      have hloop := loop_single s.touchedNodes s.stepsCompleted k hothers
      have hc := (prefix_below _ hp k).1 hbelow
      simp [checkSequence, hloop, checkSequenceBody, hpk, hc]
  · intro k hk0 hk1
    exact (key k ⟨hk0, hk1⟩).2.2.1


/-- C3, amended, at a concrete state: step 0 completed, pads 3 and 2 touched; step 1
completes and 1 is returned. -/
theorem checkSequence_single_pair_witness :
    IsPrefix (stateWith (stepsUpTo 1) (touchPads 3 2)).stepsCompleted ∧
    (checkSequence (stateWith (stepsUpTo 1) (touchPads 3 2))).2 = 1 :=
  ⟨by decide,
    (checkSequence_single_pair (stateWith (stepsUpTo 1) (touchPads 3 2))
      (by decide) (by decide)).2.2 1 (by decide) (by decide)⟩


/-! ## C4 -/

theorem foldl_ineligible (t : Fin 8 → Bool) (l : List (Fin 5)) (acc : (Fin 5 → Bool) × Int)
    (h : ∀ i ∈ l, (prevStep acc.1 i || decide (i.val = 0)) = true → pairTouched t i = false) :
    l.foldl (checkSequenceBody t) acc = acc := by
  induction l with
  | nil => rfl
  | cons a l ih =>
    have ha : checkSequenceBody t acc a = acc := by
      unfold checkSequenceBody
      by_cases hc : (prevStep acc.1 a || decide (a.val = 0)) = true
      · simp [h a (List.mem_cons_self _ _) hc]
      · simp only [Bool.not_eq_true] at hc
        simp [hc]
    rw [List.foldl_cons, ha]
    exact ih (fun i hi => h i (List.mem_cons_of_mem _ hi))

theorem foldl_nonneg (t : Fin 8 → Bool) (l : List (Fin 5)) (acc : (Fin 5 → Bool) × Int)
    (h : 0 ≤ acc.2) : 0 ≤ (l.foldl (checkSequenceBody t) acc).2 := by
  refine foldl_invariant (fun a => 0 ≤ a.2) _ ?_ l acc h
  intro b a hb
  unfold checkSequenceBody
  split
  · exact Int.ofNat_nonneg _
  · exact hb

theorem prevStep_mono (sc sc2 : Fin 5 → Bool) (hm : ∀ k, sc k = true → sc2 k = true) (i : Fin 5)
    (h : (prevStep sc i || decide (i.val = 0)) = true) :
    (prevStep sc2 i || decide (i.val = 0)) = true := by
  unfold prevStep at *
  by_cases h0 : i.val = 0
  · simp [h0]
  · simp only [h0, dite_false, decide_False, Bool.or_false] at h ⊢
    exact hm _ h

theorem foldl_eligible (t : Fin 8 → Bool) (l : List (Fin 5)) :
    ∀ (acc : (Fin 5 → Bool) × Int) (i : Fin 5), i ∈ l →
      (prevStep acc.1 i || decide (i.val = 0)) = true → pairTouched t i = true →
      0 ≤ (l.foldl (checkSequenceBody t) acc).2 := by
  induction l with
  | nil => intro acc i hi; simp at hi
  | cons a l ih =>
    intro acc i hi he hp
    rw [List.foldl_cons]
    rcases List.mem_cons.1 hi with rfl | hmem
    · apply foldl_nonneg
      simp [checkSequenceBody, he, hp]
    · exact ih _ i hmem (prevStep_mono _ _ (fun k hk => body_mono t acc a k hk) i he) hp

/-- C4, as stated, fails: with step 0 completed and the pads 1 and 0 touched again, the call
of `checkSequence()` turns no step and returns 0, not -1. -/
theorem checkSequence_reports_completed_step :
    IsPrefix (stateWith (stepsUpTo 1) (touchPads 1 0)).stepsCompleted ∧
    (∀ k, (checkSequence (stateWith (stepsUpTo 1) (touchPads 1 0))).1.stepsCompleted k =
      (stateWith (stepsUpTo 1) (touchPads 1 0)).stepsCompleted k) ∧
    (checkSequence (stateWith (stepsUpTo 1) (touchPads 1 0))).2 = 0 := by
  decide

/-- C4, amended: `checkSequence()` returns -1 exactly when no step that is open for checking
(step 0, or a step whose predecessor is completed) has both pads of its pair touched, and
then no entry of `stepsCompleted` changes.  Touching both pads of an already-completed step
(and of no other pair) changes no entry either, but the call returns that step's index. -/
theorem checkSequence_minus_one (s : State) :
    ((checkSequence s).2 = -1 ↔
      ∀ i : Fin 5, (i.val = 0 ∨ prevStep s.stepsCompleted i = true) →
        pairTouched s.touchedNodes i = false) ∧
    ((checkSequence s).2 = -1 → (checkSequence s).1.stepsCompleted = s.stepsCompleted) ∧
    (∀ k : Fin 5, s.stepsCompleted k = true →
      (k.val = 0 ∨ prevStep s.stepsCompleted k = true) →
      pairTouched s.touchedNodes k = true →
      (∀ i, i ≠ k → pairTouched s.touchedNodes i = false) →
      (checkSequence s).2 = (k.val : Int) ∧
        (checkSequence s).1.stepsCompleted = s.stepsCompleted) := by
  have hiff : (checkSequence s).2 = -1 ↔
      ∀ i : Fin 5, (i.val = 0 ∨ prevStep s.stepsCompleted i = true) →
        pairTouched s.touchedNodes i = false := by
    constructor
    · intro hr i hi
      by_contra hp
      simp only [Bool.not_eq_false] at hp
      have := foldl_eligible s.touchedNodes (List.finRange 5) (s.stepsCompleted, -1) i
        (List.mem_finRange i) (by rcases hi with h | h <;> simp [h]) hp
      have hr2 : (checkSequenceLoop s.touchedNodes s.stepsCompleted).2 = -1 := hr
      unfold checkSequenceLoop at hr2
      omega
    · intro h
      have := foldl_ineligible s.touchedNodes (List.finRange 5) (s.stepsCompleted, -1)
        (fun i _ hi => h i (by
          simp only [Bool.or_eq_true, decide_eq_true_eq] at hi
          tauto))
      simp [checkSequence, checkSequenceLoop, this]
  refine ⟨hiff, ?_, ?_⟩
  · intro hr
    have := foldl_ineligible s.touchedNodes (List.finRange 5) (s.stepsCompleted, -1)
      (fun i _ hi => hiff.1 hr i (by
        simp only [Bool.or_eq_true, decide_eq_true_eq] at hi
        tauto))
    simp [checkSequence, checkSequenceLoop, this]
  · intro k hk he hp hothers
    have hloop := loop_single s.touchedNodes s.stepsCompleted k hothers
    have hc : (prevStep s.stepsCompleted k || decide (k.val = 0)) = true := by
      rcases he with h | h <;> simp [h]
    have hupd : Function.update s.stepsCompleted k true = s.stepsCompleted := by
      rw [← hk]; exact Function.update_eq_self k s.stepsCompleted
    simp [checkSequence, hloop, checkSequenceBody, hc, hp, hupd]

/-- C4, amended, at a concrete state: step 0 completed, pads 1 and 0 touched. -/
theorem checkSequence_minus_one_witness :
    (checkSequence (stateWith (stepsUpTo 1) (touchPads 1 0))).2 = ((0 : Fin 5).val : Int) ∧
    (checkSequence (stateWith (stepsUpTo 1) (touchPads 1 0))).1.stepsCompleted =
      (stateWith (stepsUpTo 1) (touchPads 1 0)).stepsCompleted :=
  (checkSequence_minus_one (stateWith (stepsUpTo 1) (touchPads 1 0))).2.2 0
    (by decide) (by decide) (by decide) (by decide)


/-! ## C5 -/

theorem pairs_distinct : ∀ n i : Fin 5, i ≠ n →
    pairTouched (touchPads (nodePairs n).1 (nodePairs n).2) i = false := by
  decide

theorem pair_self : ∀ n : Fin 5,
    pairTouched (touchPads (nodePairs n).1 (nodePairs n).2) n = true := by
  decide

theorem stepsUpTo_open : ∀ n : Fin 5,
    (prevStep (stepsUpTo n.val) n || decide (n.val = 0)) = true := by
  decide

theorem stepsUpTo_update : ∀ n k : Fin 5,
    Function.update (stepsUpTo n.val) n true k = stepsUpTo (n.val + 1) k := by
  decide

/-- C5: from the state in which exactly the steps `0..n-1` are completed, a call of
`checkSequence()` whose touch set is exactly the two pads of the pair of step `n` marks step
`n` completed, returns `n` and completes no other step: afterwards exactly the steps `0..n`
are completed. -/
theorem checkSequence_next_pair (s : State) (n : Fin 5)
    (hs : ∀ k, s.stepsCompleted k = decide (k.val < n.val))
    (ht : ∀ p, s.touchedNodes p = decide (p = (nodePairs n).1 ∨ p = (nodePairs n).2)) :
    (checkSequence s).2 = (n.val : Int) ∧
    (checkSequence s).1.stepsCompleted n = true ∧
    (∀ k, k ≠ n → (checkSequence s).1.stepsCompleted k = s.stepsCompleted k) ∧
    (∀ k, (checkSequence s).1.stepsCompleted k = decide (k.val ≤ n.val)) := by
  have hs2 : s.stepsCompleted = stepsUpTo n.val := funext hs
  have ht2 : s.touchedNodes = touchPads (nodePairs n).1 (nodePairs n).2 := by
    funext p; rw [ht p]; simp [touchPads, Bool.decide_or]
  have hloop := loop_single s.touchedNodes s.stepsCompleted n
    (by rw [ht2]; exact pairs_distinct n)
  have hbody : checkSequenceBody s.touchedNodes (s.stepsCompleted, -1) n =
      (Function.update s.stepsCompleted n true, (n.val : Int)) := by
    simp [checkSequenceBody, hs2, ht2, stepsUpTo_open n, pair_self n]
  have hsc : (checkSequence s).1.stepsCompleted = Function.update s.stepsCompleted n true := by
    simp only [checkSequence, hloop, hbody]
  have hret : (checkSequence s).2 = (n.val : Int) := by
    simp only [checkSequence, hloop, hbody]
  refine ⟨hret, by simp [hsc], fun k hk => by simp [hsc, Function.update_noteq hk], fun k => ?_⟩
  rw [hsc, hs2, stepsUpTo_update n k]
  simp [stepsUpTo, Nat.lt_succ_iff]

/-- C5 at the power-on state with the pads 1 and 0 touched: step 0 is completed, the steps
1..4 are not, and 0 is returned. -/
theorem checkSequence_next_pair_witness :
    (checkSequence (stateWith (stepsUpTo 0) (touchPads 1 0))).2 = 0 ∧
    (checkSequence (stateWith (stepsUpTo 0) (touchPads 1 0))).1.stepsCompleted 0 = true ∧
    (∀ k, k ≠ 0 → (checkSequence (stateWith (stepsUpTo 0) (touchPads 1 0))).1.stepsCompleted k =
      false) :=
  have h := checkSequence_next_pair (stateWith (stepsUpTo 0) (touchPads 1 0)) 0
    (by decide) (by decide)
  ⟨h.1, h.2.1, fun k hk => (h.2.2.1 k hk).trans rfl⟩


/-! ## C6 -/

theorem fin5_cases (k : Fin 5) : k = 0 ∨ k = 1 ∨ k = 2 ∨ k = 3 ∨ k = 4 := by
  fin_cases k <;> simp

/-- C6: `checkCompletion()` sets `fridgeUnlocked` exactly when all five entries of
`stepsCompleted` are true and otherwise leaves the whole state as it was; it changes nothing
else; it returns the number `n` of leading completed steps minus one, so -1 exactly when
step 0 is not completed and 4 exactly when all five steps are. -/
theorem checkCompletion_spec (s : State) :
    (checkCompletion s).1 =
      (if ∀ k, s.stepsCompleted k = true then { s with fridgeUnlocked := true } else s) ∧
    (∃ n : Nat, n ≤ 5 ∧ (checkCompletion s).2 = (n : Int) - 1 ∧
      (∀ k : Fin 5, k.val < n → s.stepsCompleted k = true) ∧
      (∀ h : n < 5, s.stepsCompleted ⟨n, h⟩ = false)) ∧
    ((checkCompletion s).2 = -1 ↔ s.stepsCompleted 0 = false) ∧
    ((checkCompletion s).2 = 4 ↔ ∀ k, s.stepsCompleted k = true) := by
  refine ⟨checkCompletion_fst s, ?_, ?_, ?_⟩
  · rw [checkCompletion_snd, countLeading_eq]
    by_cases h0 : s.stepsCompleted 0 = true
    · by_cases h1 : s.stepsCompleted 1 = true
      · by_cases h2 : s.stepsCompleted 2 = true
        · by_cases h3 : s.stepsCompleted 3 = true
          · by_cases h4 : s.stepsCompleted 4 = true
            · refine ⟨5, le_refl _, by simp [h0, h1, h2, h3, h4], ?_, fun h => absurd h (by decide)⟩
              intro k _
              rcases fin5_cases k with rfl | rfl | rfl | rfl | rfl <;> assumption
            · refine ⟨4, by decide, by simp [h0, h1, h2, h3, h4], ?_, fun _ => by simpa using h4⟩
              intro k hk
              rcases fin5_cases k with rfl | rfl | rfl | rfl | rfl <;>
                first | assumption | (exfalso; revert hk; decide)
          · refine ⟨3, by decide, by simp [h0, h1, h2, h3], ?_, fun _ => by simpa using h3⟩
            intro k hk
            rcases fin5_cases k with rfl | rfl | rfl | rfl | rfl <;>
              first | assumption | (exfalso; revert hk; decide)
        · refine ⟨2, by decide, by simp [h0, h1, h2], ?_, fun _ => by simpa using h2⟩
          intro k hk
          rcases fin5_cases k with rfl | rfl | rfl | rfl | rfl <;>
            first | assumption | (exfalso; revert hk; decide)
      · refine ⟨1, by decide, by simp [h0, h1], ?_, fun _ => by simpa using h1⟩
        intro k hk
        rcases fin5_cases k with rfl | rfl | rfl | rfl | rfl <;>
          first | assumption | (exfalso; revert hk; decide)
    · refine ⟨0, by decide, by simp [h0], ?_, fun _ => by simpa using h0⟩
      intro k hk; simp at hk
  · exact checkCompletion_minus_one s
  · exact checkCompletion_four s

/-! ## C7 -/

theorem loop_all_done (t : Fin 8 → Bool) (sc : Fin 5 → Bool)
    (hs : ∀ k : Fin 5, sc k = decide (k.val < 4)) (h4 : pairTouched t 4 = true) :
    (checkSequenceLoop t sc).2 = 4 ∧ ∀ k, (checkSequenceLoop t sc).1 k = true := by
  have h0 : sc 0 = true := by rw [hs]; decide
  have h1 : sc 1 = true := by rw [hs]; decide
  have h2 : sc 2 = true := by rw [hs]; decide
  have h3 : sc 3 = true := by rw [hs]; decide
  have hmono := fun k hk => loop_mono t sc k hk
  unfold checkSequenceLoop at *
  rw [finRange_five] at *
  simp only [List.foldl_cons, List.foldl_nil] at *
  generalize hacc : checkSequenceBody t (checkSequenceBody t (checkSequenceBody t
    (checkSequenceBody t (sc, -1) 0) 1) 2) 3 = acc at *
  have hp : prevStep acc.1 4 = true := by
    rw [(prevStep_lit acc.1).2.2.2.2]
    rw [← hacc]
    exact foldl_invariant (fun a => a.1 3 = true) _
      (fun b a hb => body_mono t b a 3 hb) [0, 1, 2, 3] (sc, -1) h3
  have hbody : checkSequenceBody t acc 4 = (Function.update acc.1 4 true, 4) := by
    simp only [checkSequenceBody, hp, h4, Bool.true_or, Bool.and_self, if_true]
    rfl
  rw [hbody] at hmono ⊢
  refine ⟨rfl, fun k => ?_⟩
  rcases fin5_cases k with rfl | rfl | rfl | rfl | rfl
  · exact hmono 0 h0
  · exact hmono 1 h1
  · exact hmono 2 h2
  · exact hmono 3 h3
  · simp


theorem frameHead_fridgeUnlocked (s : State) (i : Nat) (hall : ∀ k, s.stepsCompleted k = true)
    (hc : s.cycleCount < 4) : (frameHead s i).1.fridgeUnlocked = true := by
  unfold frameHead
  simp only [lightLEDpair, killLEDs, sendMessage, checkCompletion_fst]
  by_cases hi : i = 0
  · simp [hi, hc, hall]
  · simp [hi, hall]

theorem afterInner_fridgeUnlocked (s : State) (i : Nat) (hall : ∀ k, s.stepsCompleted k = true)
    (hc : s.cycleCount = 0) (hu : s.fridgeUnlocked = false) :
    (afterInner s i).1.fridgeUnlocked = true := by
  unfold afterInner frameTail
  have hc4 : s.cycleCount < 4 := by omega
  by_cases hr : s.revertTo0 = true
  · simp only [hr, if_true, forNext]
    apply frameHead_fridgeUnlocked
    · unfold loopEntry; split <;> exact hall
    · unfold loopEntry; split <;> exact hc4
  · simp only [hr, hu, Bool.false_eq_true, if_false, forNext]
    split
    · exact frameHead_fridgeUnlocked _ _ hall hc4
    · apply frameHead_fridgeUnlocked
      · unfold loopEntry; split <;> exact hall
      · unfold loopEntry; split <;> exact hc4

theorem innerTick_all_done (r : Readings) (i : Nat) (s : State)
    (h : (∀ k, s.stepsCompleted k = true) ∧ s.cycleCount = 0 ∧ s.fridgeUnlocked = false) :
    (∀ k, (innerTick r i s).s.stepsCompleted k = true) ∧ (innerTick r i s).s.cycleCount = 0 ∧
      (innerTick r i s).s.fridgeUnlocked = false := by
  rw [innerTick_eq]
  refine ⟨fun k => loop_mono _ _ k (h.1 k), ?_, h.2.2⟩
  simp only [h.2.1]
  split <;> rfl

/-- C7, as stated, fails: with the steps 0..3 completed and frame 9 lit, a tick whose sample
trips exactly the pads 4 and 6 completes step 4 and reports 4, but `fridgeUnlocked` is still
false when the tick ends. -/
theorem last_step_tick_leaves_locked :
    (∀ k : Fin 5, beforeLastStep.stepsCompleted k = decide (k.val < 4)) ∧
    (∀ p : Fin 8, readPads 4 6 p > node_threshold ↔ (p = 4 ∨ p = 6)) ∧
    (innerTick (readPads 4 6) 9 beforeLastStep).completedStep = 4 ∧
    (∀ k, (innerTick (readPads 4 6) 9 beforeLastStep).s.stepsCompleted k = true) ∧
    (innerTick (readPads 4 6) 9 beforeLastStep).s.fridgeUnlocked = false := by
  decide

/-- C7, amended: from a state with the steps 0..3 completed, step 4 open and `fridgeUnlocked`
false, a tick of the inner loop whose sample trips exactly the pads 4 and 6 completes step 4
and `checkSequence()` returns 4; the tick itself leaves `fridgeUnlocked` false; the completion
signal fires when `checkCompletion()` next runs (it then sets `fridgeUnlocked` and returns 4),
which is at the head of the next iteration of the outer loop: `fridgeUnlocked` is true when
the next frame has been lit. -/
theorem last_step_unlocks_at_next_frame (sens : Nat → Readings) (n t i : Nat) (s : State)
    (hs : ∀ k : Fin 5, s.stepsCompleted k = decide (k.val < 4))
    (hr : ∀ p : Fin 8, sens t p > node_threshold ↔ (p = 4 ∨ p = 6))
    (hu : s.fridgeUnlocked = false) :
    (innerTick (sens t) i s).completedStep = 4 ∧
    (∀ k, (innerTick (sens t) i s).s.stepsCompleted k = true) ∧
    (innerTick (sens t) i s).s.fridgeUnlocked = false ∧
    (checkCompletion (innerTick (sens t) i s).s).1.fridgeUnlocked = true ∧
    (checkCompletion (innerTick (sens t) i s).s).2 = 4 ∧
    (afterInner (innerLoop sens (n + 1) t i s).1 (innerLoop sens (n + 1) t i s).2.1).1.fridgeUnlocked
      = true := by
  have hp : pairTouched (fun k => s.touchedNodes k || decide (sens t k > node_threshold)) 4
      = true := by
    have h4 : sens t 4 > node_threshold := (hr 4).2 (Or.inl rfl)
    have h6 : sens t 6 > node_threshold := (hr 6).2 (Or.inr rfl)
    simp [pairTouched, nodePairs, h4, h6]
  have hloop := loop_all_done _ s.stepsCompleted hs hp
  have hany : ∃ k, sens t k > node_threshold := ⟨4, (hr 4).2 (Or.inl rfl)⟩
  have htick : (∀ k, (innerTick (sens t) i s).s.stepsCompleted k = true) ∧
      (innerTick (sens t) i s).s.cycleCount = 0 ∧
      (innerTick (sens t) i s).s.fridgeUnlocked = false := by
    rw [innerTick_eq]
    exact ⟨hloop.2, by simp only [hany, if_true], hu⟩
  refine ⟨by rw [innerTick_eq]; exact hloop.1, htick.1, htick.2.2, ?_,
    (checkCompletion_four _).2 htick.1, ?_⟩
  · rw [checkCompletion_fst, if_pos htick.1]
  · have hinv := innerLoop_invariant
      (fun s _ => (∀ k, s.stepsCompleted k = true) ∧ s.cycleCount = 0 ∧ s.fridgeUnlocked = false)
      sens (fun r i s h => innerTick_all_done r i s h)
    have hrest : (∀ k, (innerLoop sens (n + 1) t i s).1.stepsCompleted k = true) ∧
        (innerLoop sens (n + 1) t i s).1.cycleCount = 0 ∧
        (innerLoop sens (n + 1) t i s).1.fridgeUnlocked = false := by
      unfold innerLoop
      simp only
      split
      · exact htick
      · exact hinv n (t + 1) _ _ htick
    exact afterInner_fridgeUnlocked _ _ hrest.1 hrest.2.1 hrest.2.2

/-- C7, amended, at a concrete frame: steps 0..3 completed, frame 9 lit, the pads 4 and 6
touched at the first tick of the frame. -/
theorem last_step_unlocks_at_next_frame_witness :
    (innerTick (readPads 4 6) 9 beforeLastStep).completedStep = 4 ∧
    (afterInner (innerLoop (fun _ => readPads 4 6) 25 0 9 beforeLastStep).1
      (innerLoop (fun _ => readPads 4 6) 25 0 9 beforeLastStep).2.1).1.fridgeUnlocked = true :=
  have h := last_step_unlocks_at_next_frame (fun _ => readPads 4 6) 24 0 9 beforeLastStep
    (by decide) (by decide) (by decide)
  ⟨h.1, h.2.2.2.2.2⟩

/-! ## C8 -/

theorem loop_reported (t : Fin 8 → Bool) (sc : Fin 5 → Bool) :
    (checkSequenceLoop t sc).2 = -1 ∨
      ∃ j : Fin 5, (checkSequenceLoop t sc).2 = (j.val : Int) ∧ (checkSequenceLoop t sc).1 j = true := by
  unfold checkSequenceLoop
  refine foldl_invariant (fun a => a.2 = -1 ∨ ∃ j : Fin 5, a.2 = (j.val : Int) ∧ a.1 j = true)
    _ ?_ _ (sc, -1) (Or.inl rfl)
  intro b a hb
  by_cases hc : ((prevStep b.1 a || decide (a.val = 0)) && pairTouched t a) = true
  · right
    refine ⟨a, ?_, ?_⟩ <;> simp [checkSequenceBody, hc]
  · have : checkSequenceBody t b a = b := by simp [checkSequenceBody, hc]
    rw [this]
    exact hb

theorem tlc_values : ∀ j : Fin 5,
    touchLEDcorrespondence (j.val : Int) + 1 < 11 ∧
    (touchLEDcorrespondence (j.val : Int) = 0 ↔ j = 0) := by
  decide

theorem isPrefix_zero (sc : Fin 5 → Bool) (hp : IsPrefix sc) (j : Fin 5) (hj : sc j = true) :
    sc 0 = true := by
  rw [isPrefix_iff] at hp
  obtain ⟨h0, h1, h2, h3⟩ := hp
  rcases fin5_cases j with rfl | rfl | rfl | rfl | rfl <;> tauto

theorem frameHead_snd (s : State) (i : Nat) :
    (frameHead s i).2 = if i = 0 then 0 else if s.stepsCompleted 0 = true then i else 0 := by
  unfold frameHead
  simp only [haltUntilFirstTouch, and_true]
  by_cases hi : i = 0
  · simp [hi]
  · simp only [hi, if_false]
    have := checkCompletion_minus_one s
    by_cases h0 : s.stepsCompleted 0 = true
    · have hne : ¬ (checkCompletion s).2 = -1 := fun h => by
        rw [this.1 h] at h0; cases h0
      simp [hne, h0]
    · simp only [Bool.not_eq_true] at h0
      simp [this.2 h0, h0]


theorem innerTick_completedStep (r : Readings) (i : Nat) (s : State) :
    (innerTick r i s).completedStep =
      (checkSequenceLoop (fun k => s.touchedNodes k || decide (r k > node_threshold))
        s.stepsCompleted).2 := by
  rw [innerTick_eq]

theorem innerTick_stepsCompleted (r : Readings) (i : Nat) (s : State) :
    (innerTick r i s).s.stepsCompleted =
      (checkSequenceLoop (fun k => s.touchedNodes k || decide (r k > node_threshold))
        s.stepsCompleted).1 := by
  rw [innerTick_eq]

theorem innerTick_broke (r : Readings) (i : Nat) (s : State) :
    (innerTick r i s).broke =
      decide ((innerTick r i s).completedStep ≥ 0 ∧
        (innerTick r i s).completedStep ≠ s.previousCycle ∧
        touchLEDcorrespondence (innerTick r i s).completedStep < i + 1) := by
  rw [innerTick_eq]

theorem innerTick_i (r : Readings) (i : Nat) (s : State) :
    (innerTick r i s).i =
      if (innerTick r i s).broke = true then
        touchLEDcorrespondence (innerTick r i s).completedStep else i := by
  rw [innerTick_eq]

theorem innerTick_revertTo0 (r : Readings) (i : Nat) (s : State) :
    (innerTick r i s).s.revertTo0 =
      (s.revertTo0 || ((innerTick r i s).broke &&
        decide (touchLEDcorrespondence (innerTick r i s).completedStep = 0))) := by
  rw [innerTick_eq]

theorem innerTick_fridgeUnlocked (r : Readings) (i : Nat) (s : State) :
    (innerTick r i s).s.fridgeUnlocked = s.fridgeUnlocked := by
  rw [innerTick_eq]

theorem innerTick_previousCycle (r : Readings) (i : Nat) (s : State) :
    (innerTick r i s).s.previousCycle = (innerTick r i s).completedStep := by
  rw [innerTick_eq]

theorem innerTick_touchedNodes (r : Readings) (i : Nat) (s : State) :
    (innerTick r i s).s.touchedNodes = fun _ => false := by
  rw [innerTick_eq]

theorem innerTick_cycleCount (r : Readings) (i : Nat) (s : State) :
    (innerTick r i s).s.cycleCount =
      if ∃ k, r k > node_threshold then 0 else s.cycleCount := by
  rw [innerTick_eq]

theorem innerTick_reported (r : Readings) (i : Nat) (s : State) :
    (innerTick r i s).completedStep = -1 ∨
      ∃ j : Fin 5, (innerTick r i s).completedStep = (j.val : Int) ∧
        (innerTick r i s).s.stepsCompleted j = true := by
  rw [innerTick_completedStep, innerTick_stepsCompleted]
  exact loop_reported _ _


/-- C8, as stated, fails: with frame 5 lit and step 1 reported for the first time (table entry
1), the inner loop is left with `i = 1`, the `i++` of the outer loop follows, and the next
frame lit is frame 2, not frame 1. -/
theorem revert_lights_frame_after_table_entry :
    (innerTick (readPads 3 2) 5 afterFirstStep).completedStep = 1 ∧
    (1 : Int) ≠ afterFirstStep.previousCycle ∧
    touchLEDcorrespondence 1 = 1 ∧ 5 > touchLEDcorrespondence 1 ∧
    (innerTick (readPads 3 2) 5 afterFirstStep).i = 1 ∧
    (frameStep (fun _ => readPads 3 2) ⟨afterFirstStep, 5, 0⟩).i = 2 := by
  decide

theorem afterInner_snd (s : State) (i : Nat) (hu : s.fridgeUnlocked = false)
    (h0 : s.stepsCompleted 0 = true) (hi : i + 1 < 11) :
    (afterInner s i).2 = if s.revertTo0 = true then 0 else i + 1 := by
  unfold afterInner frameTail
  by_cases hr : s.revertTo0 = true
  · simp only [hr, if_true, forNext, frameHead_snd]
  · simp only [hr, hu, Bool.false_eq_true, if_false, forNext, hi, if_true, frameHead_snd,
      Nat.succ_ne_zero, h0]

/-- C8, amended: in a contiguous-prefix state with `fridgeUnlocked` and `revertTo0` false, when
a tick's `checkSequence()` reports a step `k` that differs from `previousCycle` while the
cursor is at or ahead of the table entry (`touchLEDcorrespondence[k] <= i`), the inner loop is
left at once with `i = touchLEDcorrespondence[k]`, and the next frame lit is frame
`touchLEDcorrespondence[k] + 1` for `k` in 1..4 (the `i++` of the outer loop follows the
assignment) and frame 0 for `k = 0` (through `revertTo0`). -/
theorem revert_next_frame (r : Readings) (i : Nat) (s : State) (k : Fin 5)
    (hp : IsPrefix s.stepsCompleted) (hr0 : s.revertTo0 = false)
    (hu : s.fridgeUnlocked = false)
    (hk : (innerTick r i s).completedStep = (k.val : Int))
    (hne : (k.val : Int) ≠ s.previousCycle)
    (hi : touchLEDcorrespondence (k.val : Int) ≤ i) :
    (innerTick r i s).broke = true ∧
    (innerTick r i s).i = touchLEDcorrespondence (k.val : Int) ∧
    (∀ (sens : Nat → Readings) (n t : Nat), sens t = r →
      innerLoop sens (n + 1) t i s = ((innerTick r i s).s, (innerTick r i s).i, t + 1)) ∧
    (afterInner (innerTick r i s).s (innerTick r i s).i).2 =
      (if k = 0 then 0 else touchLEDcorrespondence (k.val : Int) + 1) := by
  have hbroke : (innerTick r i s).broke = true := by
    rw [innerTick_broke, hk]
    exact decide_eq_true ⟨Int.ofNat_nonneg _, hne, Nat.lt_succ_of_le hi⟩
  have hidx : (innerTick r i s).i = touchLEDcorrespondence (k.val : Int) := by
    rw [innerTick_i, hbroke, hk]; rfl
  have hdone : (innerTick r i s).s.stepsCompleted 0 = true := by
    rcases innerTick_reported r i s with h | ⟨j, _, hj⟩
    · rw [hk] at h; omega
    · exact isPrefix_zero _ (innerTick_prefix_kept r i s hp) j hj
  have hrev : (innerTick r i s).s.revertTo0 = decide (k = 0) := by
    rw [innerTick_revertTo0, hbroke, hk, hr0]
    simp only [Bool.false_or, Bool.true_and]
    exact decide_eq_decide.2 (tlc_values k).2
  refine ⟨hbroke, hidx, ?_, ?_⟩
  · intro sens n t hs
    unfold innerLoop
    simp only [hs, hbroke, if_true]
  · rw [hidx, afterInner_snd _ _ ((innerTick_fridgeUnlocked r i s).trans hu) hdone
      (tlc_values k).1, hrev]
    simp only [decide_eq_true_eq]

/-- C8, amended, at a concrete tick: frame 5 lit, step 0 completed, the pads 3 and 2 touched:
the next frame lit is frame 2. -/
theorem revert_next_frame_witness :
    (afterInner (innerTick (readPads 3 2) 5 afterFirstStep).s
      (innerTick (readPads 3 2) 5 afterFirstStep).i).2 = 2 :=
  (revert_next_frame (readPads 3 2) 5 afterFirstStep 1
    (by decide) (by decide) (by decide) (by decide) (by decide) (by decide)).2.2.2

/-! ## C9 -/

/-- C9, as stated, fails: at power-on frame 0 is lit and the table entry of step 0 is 0
(cursor aligned); the first tick that reports step 0 takes the revert branch, sets
`revertTo0` and leaves the inner loop after this one tick. -/
theorem aligned_cursor_reverts :
    powerOn.i = 0 ∧ touchLEDcorrespondence 0 ≥ powerOn.i ∧
    (innerTick (readPads 1 0) powerOn.i powerOn.s).completedStep = 0 ∧
    (innerTick (readPads 1 0) powerOn.i powerOn.s).broke = true ∧
    (innerTick (readPads 1 0) powerOn.i powerOn.s).s.revertTo0 = true ∧
    powerOn.s.revertTo0 = false ∧
    (innerLoop (fun _ => readPads 1 0) 25 0 powerOn.i powerOn.s).2.2 = 1 := by
  decide

/-- C9, amended: when a tick's `checkSequence()` reports a step whose table entry is strictly
greater than the cursor index (`touchLEDcorrespondence[k] > i`, cursor behind), the revert
branch is not taken, `i` is not reassigned, `revertTo0` is not set and the inner loop goes on
with the next tick.  The revert branch is taken exactly when a step is reported that differs
from `previousCycle` and whose table entry is `<= i`, the aligned cursor included. -/
theorem no_revert_when_behind (r : Readings) (i : Nat) (s : State) :
    (touchLEDcorrespondence (innerTick r i s).completedStep > i →
      (innerTick r i s).broke = false ∧ (innerTick r i s).i = i ∧
      (innerTick r i s).s.revertTo0 = s.revertTo0 ∧
      ∀ (sens : Nat → Readings) (n t : Nat), sens t = r →
        innerLoop sens (n + 1) t i s = innerLoop sens n (t + 1) i (innerTick r i s).s) ∧
    ((innerTick r i s).broke = true ↔
      (0 ≤ (innerTick r i s).completedStep ∧
        (innerTick r i s).completedStep ≠ s.previousCycle ∧
        touchLEDcorrespondence (innerTick r i s).completedStep ≤ i)) := by
  constructor
  · intro hgt
    have hbroke : (innerTick r i s).broke = false := by
      rw [innerTick_broke]
      apply decide_eq_false
      intro h
      omega
    have hidx : (innerTick r i s).i = i := by
      rw [innerTick_i, hbroke]; rfl
    refine ⟨hbroke, hidx, ?_, ?_⟩
    · rw [innerTick_revertTo0, hbroke]; simp
    · intro sens n t hs
      conv_lhs => unfold innerLoop
      simp only [hs, hbroke, hidx, Bool.false_eq_true, if_false]
  · rw [innerTick_broke, decide_eq_true_eq, Nat.lt_succ_iff]

/-- C9, amended, at a concrete tick: frame 0 lit, step 0 completed, the pads 3 and 2 touched
(table entry 1): no revert. -/
theorem no_revert_when_behind_witness :
    touchLEDcorrespondence (innerTick (readPads 3 2) 0 afterFirstStep).completedStep > 0 ∧
    (innerTick (readPads 3 2) 0 afterFirstStep).broke = false :=
  ⟨by decide,
    ((no_revert_when_behind (readPads 3 2) 0 afterFirstStep).1 (by decide)).1⟩


/-! ## C10 -/

theorem frameHead_stalls (s : State) (i : Nat)
    (h : (frameHead s i).1.stepsCompleted 0 = false) : (frameHead s i).2 = 0 := by
  rw [frameHead_snd]
  by_cases hi : i = 0
  · simp [hi]
  · have hs : (frameHead s i).1.stepsCompleted = s.stepsCompleted := by
      unfold frameHead
      simp only [lightLEDpair, killLEDs, sendMessage, checkCompletion_stepsCompleted, hi, if_false]
    rw [hs] at h
    simp [hi, h]

theorem run_is_frameHead (sens : Nat → Readings) (n : Nat) :
    ∃ s i, ((run sens n).s, (run sens n).i) = frameHead s i := by
  cases n with
  | zero => exact ⟨loopEntry (setup init), 0, rfl⟩
  | succ n =>
    unfold run frameStep afterInner
    exact ⟨_, _, rfl⟩

theorem innerLoop_mono (sens : Nat → Readings) (n t i : Nat) (s : State) (k : Fin 5)
    (h : s.stepsCompleted k = true) : (innerLoop sens n t i s).1.stepsCompleted k = true :=
  innerLoop_invariant (fun s _ => s.stepsCompleted k = true) sens
    (fun r i s h => by
      show (innerTick r i s).s.stepsCompleted k = true
      rw [innerTick_stepsCompleted]; exact loop_mono _ _ k h) n t i s h

set_option maxRecDepth 1000000 in
/-- C10, as stated, fails: after a touch of the pads 1 and 0 at the first tick and no touch
after it, exactly step 0 is completed (n = 1) and the fifth frame lit is frame 4, beyond
`touchLEDcorrespondence[2] = 3`. -/
theorem cursor_runs_ahead_while_idle :
    (∀ k : Fin 5, (run sensFirstTouch 5).s.stepsCompleted k = decide (k.val < 1)) ∧
    (run sensFirstTouch 5).i = 4 ∧ touchLEDcorrespondence 2 = 3 := by
  decide

/-- C10, amended: in every state reached from power-on under any sensor samples, as long as
no step is completed the frame lit by `loop()` is frame 0 (which is at most
`touchLEDcorrespondence[1]`): this holds when the frame is lit and after any number of
ticks of its inner loop. -/
theorem guide_waits_on_frame_zero (sens : Nat → Readings) (n : Nat) :
    ((run sens n).s.stepsCompleted 0 = false →
      (run sens n).i = 0 ∧ (run sens n).i ≤ touchLEDcorrespondence 1) ∧
    (∀ j : Nat, (innerLoop sens j (run sens n).tick (run sens n).i
        (run sens n).s).1.stepsCompleted 0 = false → (run sens n).i = 0) := by
  have h1 : (run sens n).s.stepsCompleted 0 = false → (run sens n).i = 0 := by
    obtain ⟨s, i, h⟩ := run_is_frameHead sens n
    intro h0
    have hs : (run sens n).s = (frameHead s i).1 := congrArg Prod.fst h
    have hi : (run sens n).i = (frameHead s i).2 := congrArg Prod.snd h
    rw [hi]
    apply frameHead_stalls
    rw [← hs]
    exact h0
  refine ⟨fun h0 => ⟨h1 h0, by rw [h1 h0]; decide⟩, fun j hj => h1 ?_⟩
  by_contra hc
  simp only [Bool.not_eq_false] at hc
  rw [innerLoop_mono sens j _ _ _ 0 hc] at hj
  cases hj

/-- C10, amended, at power-on: no step is completed and frame 0 is lit. -/
theorem guide_waits_on_frame_zero_witness :
    (run sensFirstTouch 0).s.stepsCompleted 0 = false ∧ (run sensFirstTouch 0).i = 0 :=
  ⟨by decide, ((guide_waits_on_frame_zero sensFirstTouch 0).1 (by decide)).1⟩

/-! ## C11 -/

theorem innerTick_range (r : Readings) (i : Nat) (s : State) :
    -1 ≤ (innerTick r i s).completedStep ∧ (innerTick r i s).completedStep ≤ 4 := by
  rcases innerTick_reported r i s with h | ⟨j, hj, _⟩
  · rw [h]; decide
  · rw [hj]
    have := j.isLt
    omega

theorem innerTick_i_le (r : Readings) (i : Nat) (s : State) (hi : i ≤ 10) :
    (innerTick r i s).i ≤ 10 := by
  rw [innerTick_i]
  split
  · rename_i hb
    rw [innerTick_broke, decide_eq_true_eq] at hb
    rcases innerTick_reported r i s with h | ⟨j, hj, _⟩
    · rw [h] at hb; omega
    · rw [hj]
      have := (tlc_values j).1
      omega
  · exact hi

theorem frameHead_snd_le (s : State) (i : Nat) (hi : i ≤ 10) : (frameHead s i).2 ≤ 10 := by
  rw [frameHead_snd]
  split_ifs <;> omega

theorem afterInner_eq (s : State) (i : Nat) :
    afterInner s i =
      frameHead (forNext (frameTail s i).1 (frameTail s i).2).1
        (forNext (frameTail s i).1 (frameTail s i).2).2 := rfl

theorem forNext_snd_le (s : State) (r : Option Nat) : (forNext s r).2 ≤ 10 := by
  unfold forNext
  split
  · split
    · simp only; omega
    · exact Nat.zero_le _
  · exact Nat.zero_le _

theorem afterInner_snd_le (s : State) (i : Nat) : (afterInner s i).2 ≤ 10 := by
  rw [afterInner_eq]
  exact frameHead_snd_le _ _ (forNext_snd_le _ _)

theorem run_i_le (sens : Nat → Readings) (n : Nat) : (run sens n).i ≤ 10 := by
  cases n with
  | zero => show powerOn.i ≤ 10; decide
  | succ n =>
    unfold run frameStep
    exact afterInner_snd_le _ _

/-- C11: in every run of `loop()` from power-on, for any sensor samples, the index of every
frame lit by line 163 is at most 10; the loop variable stays at most 10 through every tick of
the inner loop (it is the index of the delay read) and after it, a revert assignment
included: a tick that does not revert keeps `i`, a tick that reverts has a reported step in
0..4 as the index into `touchLEDcorrespondence` and sets `i` to at most 9, so that the
increment that follows gives at most 10; `completedStep` is always in -1..4; the animation
lights frame 10. -/
theorem cursor_index_in_range (sens : Nat → Readings) (n : Nat) :
    (run sens n).i ≤ 10 ∧
    (∀ j : Nat, (innerLoop sens j (run sens n).tick (run sens n).i (run sens n).s).2.1 ≤ 10) ∧
    (∀ (r : Readings) (i : Nat) (s : State),
      (-1 ≤ (innerTick r i s).completedStep ∧ (innerTick r i s).completedStep ≤ 4) ∧
      ((innerTick r i s).broke = false → (innerTick r i s).i = i) ∧
      ((innerTick r i s).broke = true →
        0 ≤ (innerTick r i s).completedStep ∧
        (innerTick r i s).i = touchLEDcorrespondence (innerTick r i s).completedStep ∧
        (innerTick r i s).i + 1 ≤ 10)) ∧
    (∀ (s : State) (i : Nat), (afterInner s i).2 ≤ 10) ∧
    (∀ s : State, blink s = lightLEDpair 10 (killLEDs (lightLEDpair 10 (killLEDs
      (lightLEDpair 10 (killLEDs (lightLEDpair 10 s))))))) := by
  refine ⟨run_i_le sens n, fun j => ?_, fun r i s => ⟨innerTick_range r i s, ?_, ?_⟩,
    afterInner_snd_le, fun _ => rfl⟩
  · exact innerLoop_invariant (fun _ i => i ≤ 10) sens
      (fun r i s h => innerTick_i_le r i s h) j _ _ _ (run_i_le sens n)
  · intro hb
    rw [innerTick_i, hb]; rfl
  · intro hb
    have hidx : (innerTick r i s).i = touchLEDcorrespondence (innerTick r i s).completedStep := by
      rw [innerTick_i, hb]; rfl
    have hc := hb
    rw [innerTick_broke, decide_eq_true_eq] at hc
    refine ⟨hc.1, hidx, ?_⟩
    rcases innerTick_reported r i s with h | ⟨j, hj, _⟩
    · rw [h] at hc; omega
    · rw [hidx, hj]
      have := (tlc_values j).1
      omega

/-! ## C12 -/

theorem innerLoop_invariant_on (P : State → Nat → Prop) (Q : Readings → Prop)
    (sens : Nat → Readings) (hQ : ∀ t, Q (sens t))
    (hT : ∀ r i s, Q r → P s i → P (innerTick r i s).s (innerTick r i s).i) :
    ∀ (n t i : Nat) (s : State), P s i →
      P (innerLoop sens n t i s).1 (innerLoop sens n t i s).2.1
  | 0, _, _, _, h => h
  | n + 1, t, i, s, h => by
    unfold innerLoop
    simp only
    split
    · exact hT _ _ _ (hQ t) h
    · exact innerLoop_invariant_on P Q sens hQ hT n (t + 1) _ _ (hT _ _ _ (hQ t) h)

theorem run_invariant_on (P : State → Nat → Prop) (Q : Readings → Prop)
    (sens : Nat → Readings) (hQ : ∀ t, Q (sens t))
    (h0 : P powerOn.s powerOn.i)
    (hT : ∀ r i s, Q r → P s i → P (innerTick r i s).s (innerTick r i s).i)
    (hA : ∀ s i, P s i → P (afterInner s i).1 (afterInner s i).2) :
    ∀ n, P (run sens n).s (run sens n).i
  | 0 => h0
  | n + 1 => by
    unfold run frameStep
    exact hA _ _ (innerLoop_invariant_on P Q sens hQ hT 25 _ _ _
      (run_invariant_on P Q sens hQ h0 hT hA n))

theorem innerTick_idle (r : Readings) (i : Nat) (s : State)
    (hr : ∀ p, r p ≤ node_threshold) (ht : ∀ p, s.touchedNodes p = false) :
    innerTick r i s =
      ⟨{ s with
          touchedNodes := fun _ => false
          previousCycle := -1
          unlockedLedPin := s.unlockedLedPin || s.fridgeUnlocked
          log := if s.fridgeUnlocked then Event.pin true :: s.log else s.log },
        i, -1, false⟩ := by
  have hT : (fun k => s.touchedNodes k || decide (r k > node_threshold)) = fun _ => false := by
    funext k
    have := hr k
    simp [ht k, not_lt.2 this]
  have hno : ¬ ∃ k, r k > node_threshold := by
    rintro ⟨k, hk⟩
    exact absurd hk (not_lt.2 (hr k))
  rw [innerTick_eq, hT, loop_none _ _ (fun i => by simp [pairTouched])]
  simp [hno]

theorem innerTick_stalled (r : Readings) (i : Nat) (s : State)
    (hr : ∀ p, r p ≤ node_threshold) (h : Stalled s i) :
    Stalled (innerTick r i s).s (innerTick r i s).i := by
  obtain ⟨h1, h2, h3, h4, h5, h6, h7, h8⟩ := h
  rw [innerTick_idle r i s hr h2]
  exact ⟨h1, fun _ => rfl, h3, h4, h5, h6, rfl, by simp [h8, h5]⟩

theorem afterInner_stalled (s : State) (i : Nat) (h : Stalled s i) :
    Stalled (afterInner s i).1 (afterInner s i).2 := by
  obtain ⟨h1, h2, h3, h4, h5, h6, h7, h8⟩ := h
  subst h3
  have hnot : ¬ ∀ k, s.stepsCompleted k = true := fun hall => by
    have := hall 0; rw [h1 0] at this; cases this
  have hcc : checkCompletion s = (s, -1) := by
    apply Prod.ext
    · rw [checkCompletion_fst, if_neg hnot]
    · exact (checkCompletion_minus_one s).2 (h1 0)
  have : afterInner s 0 = (lightLEDpair 0 (killLEDs s), 0) := by
    rw [afterInner_eq]
    simp [frameTail, h6, h5, forNext, frameHead, hcc, haltUntilFirstTouch]
  rw [this]
  exact ⟨h1, h2, rfl, h4, h5, h6, h7, h8⟩

theorem powerOn_stalled : Stalled powerOn.s powerOn.i := by
  refine ⟨?_, ?_, ?_, ?_, ?_, ?_, ?_, ?_⟩ <;> decide

theorem run_stalled (sens : Nat → Readings) (hs : ∀ t p, sens t p ≤ node_threshold) (n : Nat) :
    Stalled (run sens n).s (run sens n).i :=
  run_invariant_on Stalled (fun r => ∀ p, r p ≤ node_threshold) sens hs powerOn_stalled
    (fun r i s hr h => innerTick_stalled r i s hr h) afterInner_stalled n

theorem sensNone_le : ∀ t p, sensNone t p ≤ node_threshold := by
  intro t p
  simp [sensNone, readNone, node_threshold]

/-- C12, as stated, fails: with no pad ever above the threshold the idle counter is 1, not 0,
after 4 frames and after 44 frames (four times the eleven frames of the table), and the
power-on value is 0. -/
theorem idle_counter_stays_one :
    (∀ t p, sensNone t p ≤ node_threshold) ∧ init.cycleCount = 0 ∧
    (run sensNone 4).s.cycleCount = 1 ∧ (run sensNone 44).s.cycleCount = 1 :=
  ⟨sensNone_le, rfl, (run_stalled sensNone sensNone_le 4).2.2.2.1,
    (run_stalled sensNone sensNone_le 44).2.2.2.1⟩

/-- C12, amended: starting from power-on, if no pad reading ever exceeds the threshold,
`loop()` stalls on frame 0 and never starts a second pass: after every frame all five steps
are false, all eight touch flags are false, the cursor is at frame 0, the lock is locked and
the idle counter `cycleCount` is 1 (counted once at the first pass start; `reInit()` never
runs). -/
theorem stalled_without_touch (sens : Nat → Readings)
    (hs : ∀ t p, sens t p ≤ node_threshold) (n : Nat) :
    (∀ k, (run sens n).s.stepsCompleted k = false) ∧
    (∀ p, (run sens n).s.touchedNodes p = false) ∧
    (run sens n).i = 0 ∧ (run sens n).s.cycleCount = 1 ∧
    (run sens n).s.fridgeUnlocked = false ∧ (run sens n).s.unlockedLedPin = false ∧
    (run sens n).s.previousCycle = -1 ∧ (run sens n).s.revertTo0 = false := by
  obtain ⟨h1, h2, h3, h4, h5, h6, h7, h8⟩ := run_stalled sens hs n
  exact ⟨h1, h2, h3, h4, h5, h8, h7, h6⟩

/-- C12, amended, for the run without any touch, after 44 frames. -/
theorem stalled_without_touch_witness :
    (run sensNone 44).i = 0 ∧ (run sensNone 44).s.cycleCount = 1 :=
  have h := stalled_without_touch sensNone sensNone_le 44
  ⟨h.2.2.1, h.2.2.2.1⟩

/-! ## C13 -/

theorem frameHead_passStart (s : State) (i : Nat) :
    frameHead s i =
      (lightLEDpair (if (checkCompletion (passStart s i)).2 = -1 ∧ haltUntilFirstTouch = true
          then 0 else i) (killLEDs (checkCompletion (passStart s i)).1),
        if (checkCompletion (passStart s i)).2 = -1 ∧ haltUntilFirstTouch = true then 0 else i) :=
  rfl

theorem checkCompletion_cycleCount (s : State) :
    (checkCompletion s).1.cycleCount = s.cycleCount := by
  rw [checkCompletion_fst]
  split <;> rfl

theorem passStart_cycleCount (s : State) (i : Nat)
    (h : 0 ≤ s.cycleCount ∧ s.cycleCount ≤ 4) :
    0 ≤ (passStart s i).cycleCount ∧ (passStart s i).cycleCount ≤ 4 := by
  unfold passStart
  split
  · split
    · simp only; omega
    · exact ⟨le_refl _, by show (0 : Int) ≤ 4; decide⟩
  · exact h

theorem frameHead_cycleCount (s : State) (i : Nat) :
    (frameHead s i).1.cycleCount = (passStart s i).cycleCount := by
  rw [frameHead_passStart]
  simp only [lightLEDpair, killLEDs, sendMessage, checkCompletion_cycleCount]

theorem afterInner_cycleCount (s : State) (i : Nat)
    (h : 0 ≤ s.cycleCount ∧ s.cycleCount ≤ 4) :
    0 ≤ (afterInner s i).1.cycleCount ∧ (afterInner s i).1.cycleCount ≤ 4 := by
  rw [afterInner_eq, frameHead_cycleCount]
  apply passStart_cycleCount
  have hle : ∀ x : State, (0 ≤ x.cycleCount ∧ x.cycleCount ≤ 4) →
      (0 ≤ (loopEntry x).cycleCount ∧ (loopEntry x).cycleCount ≤ 4) := by
    intro x hx
    unfold loopEntry
    split <;> exact hx
  have htail : 0 ≤ (frameTail s i).1.cycleCount ∧ (frameTail s i).1.cycleCount ≤ 4 := by
    unfold frameTail
    split_ifs
    · exact h
    · exact ⟨le_refl _, by show (0 : Int) ≤ 4; decide⟩
    · exact h
  unfold forNext
  split
  · split
    · exact htail
    · exact hle _ htail
  · exact hle _ htail

theorem innerTick_cycleCount_bounds (r : Readings) (i : Nat) (s : State)
    (h : 0 ≤ s.cycleCount ∧ s.cycleCount ≤ 4) :
    0 ≤ (innerTick r i s).s.cycleCount ∧ (innerTick r i s).s.cycleCount ≤ 4 := by
  rw [innerTick_cycleCount]
  split
  · exact ⟨le_refl _, by decide⟩
  · exact h

theorem run_cycleCount (sens : Nat → Readings) (n : Nat) :
    0 ≤ (run sens n).s.cycleCount ∧ (run sens n).s.cycleCount ≤ 4 :=
  run_invariant (fun s _ => 0 ≤ s.cycleCount ∧ s.cycleCount ≤ 4) sens (by decide)
    (fun r i s h => innerTick_cycleCount_bounds r i s h)
    (fun s i h => afterInner_cycleCount s i h) n

/-- C13: the block at the start of an outer pass (`i == 0`) increments `cycleCount` by
exactly one and changes nothing else when `cycleCount` is below 4, and runs `reInit()` when
it has reached 4, before the kill write and the frame write of that pass, leaving all steps
false and `cycleCount` 0; at `i != 0` it does nothing.  `checkNodes()` sets the counter to 0
when a pad trips and leaves it otherwise.  Hence `0 <= cycleCount <= 4` after every frame
and after every tick of every run from power-on. -/
theorem idle_counter_bounded :
    (∀ s : State, s.cycleCount < 4 →
      passStart s 0 = { s with cycleCount := s.cycleCount + 1 }) ∧
    (∀ s : State, 4 ≤ s.cycleCount →
      passStart s 0 = reInit s ∧ (∀ k, (passStart s 0).stepsCompleted k = false) ∧
      (passStart s 0).cycleCount = 0 ∧
      (frameHead s 0).2 = 0 ∧
      (frameHead s 0).1.log = (lightLEDpair 0 (killLEDs (reInit s))).log) ∧
    (∀ (s : State) (i : Nat), i ≠ 0 → passStart s i = s) ∧
    (∀ (s : State) (i : Nat),
      (frameHead s i).1 =
        lightLEDpair (frameHead s i).2 (killLEDs (checkCompletion (passStart s i)).1) ∧
      (frameHead s i).1.cycleCount = (passStart s i).cycleCount) ∧
    (∀ (r : Readings) (s : State), (checkNodes r s).cycleCount =
      if ∃ k, r k > node_threshold then 0 else s.cycleCount) ∧
    (∀ (sens : Nat → Readings) (n : Nat),
      0 ≤ (run sens n).s.cycleCount ∧ (run sens n).s.cycleCount ≤ 4) ∧
    (∀ (sens : Nat → Readings) (n j : Nat),
      0 ≤ (innerLoop sens j (run sens n).tick (run sens n).i (run sens n).s).1.cycleCount ∧
      (innerLoop sens j (run sens n).tick (run sens n).i (run sens n).s).1.cycleCount ≤ 4) := by
  refine ⟨fun s h => by simp [passStart, h], fun s h => ?_, fun s i hi => by simp [passStart, hi],
    fun s i => ⟨rfl, frameHead_cycleCount s i⟩, fun r s => by rw [checkNodes_eq], run_cycleCount,
    fun sens n j => ?_⟩
  · have hp : passStart s 0 = reInit s := by simp [passStart, not_lt.2 h]
    have hcc : checkCompletion (reInit s) = (reInit s, -1) := by
      apply Prod.ext
      · rw [checkCompletion_fst, if_neg]
        intro hall
        have := hall 0
        simp [reInit] at this
      · exact (checkCompletion_minus_one _).2 rfl
    refine ⟨hp, fun k => by rw [hp]; rfl, by rw [hp]; rfl, by rw [frameHead_snd]; simp, ?_⟩
    rw [frameHead_passStart, hp, hcc]
    simp [haltUntilFirstTouch]
  · exact innerLoop_invariant (fun s _ => 0 ≤ s.cycleCount ∧ s.cycleCount ≤ 4) sens
      (fun r i s h => innerTick_cycleCount_bounds r i s h) j _ _ _ (run_cycleCount sens n)

/-- C13 at a state at the bound: with `cycleCount = 4` the block resets the state. -/
theorem idle_counter_bounded_witness :
    (passStart { afterFirstStep with cycleCount := 4 } 0).cycleCount = 0 ∧
    (passStart { afterFirstStep with cycleCount := 3 } 0).cycleCount = 4 :=
  ⟨(idle_counter_bounded.2.1 { afterFirstStep with cycleCount := 4 } (by decide)).2.2.1,
    by rw [idle_counter_bounded.1 { afterFirstStep with cycleCount := 3 } (by decide)]; rfl⟩

/-! ## C14 -/

theorem checkCompletion_reInit (s : State) : checkCompletion (reInit s) = (reInit s, -1) := by
  apply Prod.ext
  · rw [checkCompletion_fst, if_neg]
    intro hall
    have := hall 0
    simp [reInit] at this
  · exact (checkCompletion_minus_one _).2 rfl

theorem afterInner_unlocked (s : State) (i : Nat) (hr : s.revertTo0 = false)
    (hu : s.fridgeUnlocked = true) :
    afterInner s i =
      (lightLEDpair 0 (killLEDs { reInit (blink s) with started := true, cycleCount := 1 }), 0) := by
  have hcc : checkCompletion { reInit (blink s) with started := true, cycleCount := 1 } =
      ({ reInit (blink s) with started := true, cycleCount := 1 }, -1) := by
    apply Prod.ext
    · rw [checkCompletion_fst, if_neg]
      intro hall
      have := hall 0
      simp [reInit] at this
    · exact (checkCompletion_minus_one _).2 rfl
  have hrest : frameHead (loopEntry (reInit (blink s))) 0 =
      (lightLEDpair 0 (killLEDs { reInit (blink s) with started := true, cycleCount := 1 }), 0) := by
    have hp : passStart (loopEntry (reInit (blink s))) 0 =
        { reInit (blink s) with started := true, cycleCount := 1 } := by
      simp [passStart, loopEntry, reInit]
    rw [frameHead_passStart, hp, hcc]
    simp [haltUntilFirstTouch]
  rw [afterInner_eq]
  simp only [frameTail, hr, hu, Bool.false_eq_true, if_false, if_true, forNext]
  exact hrest

/-- C14: after `reInit()`, whatever the prior state, `fridgeUnlocked` is false, all five
`stepsCompleted` and all eight `touchedNodes` entries are false, `cycleCount` is 0 and the
unlock output was driven low; and the first frame lit after a `reInit()` in `loop()` is
frame 0, with no other frame write between: both for the `reInit()` of the idle timeout at
the head of a pass and for the `reInit()` after the animation. -/
theorem reInit_then_frame_zero :
    (∀ s : State, (reInit s).fridgeUnlocked = false ∧
      (∀ k, (reInit s).stepsCompleted k = false) ∧ (∀ p, (reInit s).touchedNodes p = false) ∧
      (reInit s).cycleCount = 0 ∧ (reInit s).unlockedLedPin = false ∧
      (reInit s).log = Event.pin false :: s.log) ∧
    (∀ (s : State) (i : Nat), passStart s i = reInit s → passStart s i ≠ s →
      (frameHead s i).2 = 0 ∧
      (frameHead s i).1.log = (lightLEDpair 0 (killLEDs (reInit s))).log) ∧
    (∀ (s : State) (i : Nat), s.revertTo0 = false → s.fridgeUnlocked = true →
      frameTail s i = (reInit (blink s), none) ∧ (afterInner s i).2 = 0 ∧
      (afterInner s i).1.log = (lightLEDpair 0 (killLEDs (reInit (blink s)))).log) := by
  refine ⟨fun s => ⟨rfl, fun _ => rfl, fun _ => rfl, rfl, rfl, rfl⟩, fun s i hp hne => ?_,
    fun s i hr hu => ⟨by simp [frameTail, hr, hu], ?_, ?_⟩⟩
  · have hi : i = 0 := by
      by_contra hi
      exact hne (by simp [passStart, hi])
    subst hi
    refine ⟨by rw [frameHead_snd]; simp, ?_⟩
    rw [frameHead_passStart, hp, checkCompletion_reInit]
    simp [haltUntilFirstTouch]
  · rw [afterInner_unlocked s i hr hu]
  · rw [afterInner_unlocked s i hr hu]
    rfl

/-- C14 at the end of the last frame before the animation. -/
theorem reInit_then_frame_zero_witness :
    (afterInner unlockedState 10).2 = 0 ∧
    (afterInner unlockedState 10).1.cycleCount = 1 :=
  ⟨(reInit_then_frame_zero.2.2 unlockedState 10 (by decide) (by decide)).2.1, by decide⟩

/-! ## C15 -/

set_option maxRecDepth 1000000 in
/-- C15 at the failing input: the five pairs are touched in order, then the pads 1 and 0 are
kept touched.  After the third frame the animation has been played and `reInit()` has run
(steps cleared, lock locked, frame 0 lit again), but `previousCycle` is 0, not its power-on
value -1: `reInit()` leaves `previousCycle` and `revertTo0` as they are.  The next tick with
the pads 1 and 0 touched completes step 0 without taking the revert branch, while the same
tick from power-on takes it. -/
theorem reInit_keeps_previousCycle :
    (∀ s : State, (reInit s).previousCycle = s.previousCycle ∧
      (reInit s).revertTo0 = s.revertTo0) ∧
    (run sensRelock 2).s.fridgeUnlocked = true ∧
    (∀ k, (run sensRelock 3).s.stepsCompleted k = false) ∧
    (run sensRelock 3).s.fridgeUnlocked = false ∧
    (run sensRelock 3).i = 0 ∧
    (run sensRelock 3).s.log.take 4 =
      [Event.wire IODIR0 0x40 0x0A, Event.wire GP0 0x20 0x01, Event.wire GP0 0 0,
        Event.pin false] ∧
    (run sensRelock 3).s.previousCycle = 0 ∧
    init.previousCycle = -1 ∧ powerOn.s.previousCycle = -1 ∧
    (innerTick (readPads 1 0) (run sensRelock 3).i (run sensRelock 3).s).s.stepsCompleted 0
      = true ∧
    (innerTick (readPads 1 0) (run sensRelock 3).i (run sensRelock 3).s).broke = false ∧
    (innerTick (readPads 1 0) powerOn.i powerOn.s).s.stepsCompleted 0 = true ∧
    (innerTick (readPads 1 0) powerOn.i powerOn.s).broke = true := by
  refine ⟨fun _ => ⟨rfl, rfl⟩, ?_⟩
  decide

/-! ## C16 -/

theorem innerTick_pin (r : Readings) (i : Nat) (s : State)
    (h : (innerTick r i s).s.fridgeUnlocked = true) :
    (innerTick r i s).s.unlockedLedPin = true ∧ Event.pin true ∈ (innerTick r i s).s.log := by
  rw [innerTick_fridgeUnlocked] at h
  rw [innerTick_eq]
  simp [h]

theorem innerLoop_pin (sens : Nat → Readings) (n t i : Nat) (s : State)
    (h : (innerLoop sens (n + 1) t i s).1.fridgeUnlocked = true) :
    (innerLoop sens (n + 1) t i s).1.unlockedLedPin = true ∧
      Event.pin true ∈ (innerLoop sens (n + 1) t i s).1.log := by
  unfold innerLoop at h ⊢
  simp only at h ⊢
  split at h
  · rename_i hb
    simp only [hb, if_true]
    exact innerTick_pin _ _ _ h
  · rename_i hb
    simp only [hb, if_false]
    exact innerLoop_invariant
      (fun s _ => s.fridgeUnlocked = true → s.unlockedLedPin = true ∧ Event.pin true ∈ s.log)
      sens (fun r i s _ hu => innerTick_pin r i s hu) n (t + 1) _ _
      (fun hu => innerTick_pin _ _ _ hu) h

theorem innerLoop_fridgeUnlocked (sens : Nat → Readings) (n t i : Nat) (s : State) :
    (innerLoop sens n t i s).1.fridgeUnlocked = s.fridgeUnlocked :=
  innerLoop_invariant (fun x _ => x.fridgeUnlocked = s.fridgeUnlocked) sens
    (fun r i x h => (innerTick_fridgeUnlocked r i x).trans h) n t i s rfl

theorem innerLoop_log (sens : Nat → Readings) (n t i : Nat) (s : State) :
    ∃ l, (innerLoop sens n t i s).1.log = l ++ s.log ∧ ∀ e ∈ l, e = Event.pin true := by
  refine innerLoop_invariant
    (fun x _ => ∃ l, x.log = l ++ s.log ∧ ∀ e ∈ l, e = Event.pin true) sens ?_ n t i s
    ⟨[], rfl, fun e he => by simp at he⟩
  rintro r i x ⟨l, hl, hall⟩
  rw [innerTick_eq]
  by_cases hu : x.fridgeUnlocked = true
  · refine ⟨Event.pin true :: l, by simp [hu, hl], ?_⟩
    intro e he
    rcases List.mem_cons.1 he with rfl | he
    · rfl
    · exact hall e he
  · exact ⟨l, by simp [hu, hl], hall⟩

theorem blink_log (s : State) :
    ∃ l, (blink s).log = l ++ s.log ∧ ∀ e ∈ l, ∃ reg m1 m2, e = Event.wire reg m1 m2 := by
  refine ⟨[Event.wire IODIR0 (LEDpairs 10).2.1 (LEDpairs 10).2.2.2.1,
    Event.wire GP0 (LEDpairs 10).1 (LEDpairs 10).2.2.1, Event.wire GP0 0 0,
    Event.wire IODIR0 (LEDpairs 10).2.1 (LEDpairs 10).2.2.2.1,
    Event.wire GP0 (LEDpairs 10).1 (LEDpairs 10).2.2.1, Event.wire GP0 0 0,
    Event.wire IODIR0 (LEDpairs 10).2.1 (LEDpairs 10).2.2.2.1,
    Event.wire GP0 (LEDpairs 10).1 (LEDpairs 10).2.2.1, Event.wire GP0 0 0,
    Event.wire IODIR0 (LEDpairs 10).2.1 (LEDpairs 10).2.2.2.1,
    Event.wire GP0 (LEDpairs 10).1 (LEDpairs 10).2.2.1], rfl, ?_⟩
  intro e he
  simp only [List.mem_cons, List.mem_singleton, List.not_mem_nil, or_false] at he
  rcases he with rfl | rfl | rfl | rfl | rfl | rfl | rfl | rfl | rfl | rfl | rfl <;>
    exact ⟨_, _, _, rfl⟩

/-- C16: whenever the animation is played (the inner loop of a frame ends with `revertTo0`
false and `fridgeUnlocked` true), the unlock output is high and `unlock()` has written it
high before; during the inner loop nothing but `unlock()` writes the pin; the animation
writes only to the I/O expander and leaves the output high; the `reInit()` that follows the
animation drives it low. -/
theorem unlock_high_through_blink (sens : Nat → Readings) (n t i : Nat) (s : State) :
    ((innerLoop sens (n + 1) t i s).1.fridgeUnlocked = true →
      (innerLoop sens (n + 1) t i s).1.unlockedLedPin = true ∧
      Event.pin true ∈ (innerLoop sens (n + 1) t i s).1.log) ∧
    (∃ l, (innerLoop sens (n + 1) t i s).1.log = l ++ s.log ∧ ∀ e ∈ l, e = Event.pin true) ∧
    (∀ x : State, (blink x).unlockedLedPin = x.unlockedLedPin ∧
      ∃ l, (blink x).log = l ++ x.log ∧ ∀ e ∈ l, ∃ reg m1 m2, e = Event.wire reg m1 m2) ∧
    (∀ (x : State) (j : Nat), x.revertTo0 = false → x.fridgeUnlocked = true →
      (frameTail x j).1 = reInit (blink x) ∧ (frameTail x j).1.unlockedLedPin = false ∧
      (frameTail x j).1.log = Event.pin false :: (blink x).log) ∧
    (∀ (x : State) (j : Nat), ¬ (x.revertTo0 = false ∧ x.fridgeUnlocked = true) →
      (frameTail x j).1.log = x.log ∧ (frameTail x j).1.unlockedLedPin = x.unlockedLedPin) := by
  have h1 := innerLoop_pin sens n t i s
  have h2 := innerLoop_log sens (n + 1) t i s
  have h3 : ∀ x : State, (blink x).unlockedLedPin = x.unlockedLedPin := fun _ => by
    simp only [blink, lightLEDpair, killLEDs, sendMessage]
  refine ⟨h1, h2, fun x => ⟨h3 x, blink_log x⟩, fun x j hr hu => ?_, fun x j h => ?_⟩
  · have : frameTail x j = (reInit (blink x), none) := by simp [frameTail, hr, hu]
    rw [this]
    exact ⟨rfl, rfl, rfl⟩
  · unfold frameTail
    by_cases hr : x.revertTo0 = true
    · simp [hr]
    · simp only [Bool.not_eq_true] at hr
      have hu : x.fridgeUnlocked = false := by
        by_contra hc
        simp only [Bool.not_eq_false] at hc
        exact h ⟨hr, hc⟩
      simp [hr, hu]

/-- C16 at a frame that starts right after the lock was unlocked, with no touch during the
frame: the inner loop ends unlocked with the output high. -/
theorem unlock_high_through_blink_witness :
    justUnlocked.unlockedLedPin = false ∧
    (innerLoop sensNone 25 0 10 justUnlocked).1.unlockedLedPin = true :=
  ⟨rfl, ((unlock_high_through_blink sensNone 24 0 10 justUnlocked).1
    ((innerLoop_fridgeUnlocked sensNone 25 0 10 justUnlocked).trans rfl)).1⟩

/-! ## C17 -/

theorem checkCompletion_touchedNodes (s : State) :
    (checkCompletion s).1.touchedNodes = s.touchedNodes := by
  rw [checkCompletion_fst]
  split <;> rfl

theorem afterInner_touchedNodes (s : State) (i : Nat) (h : ∀ p, s.touchedNodes p = false) :
    ∀ p, (afterInner s i).1.touchedNodes p = false := by
  have hpass : ∀ (x : State) (j : Nat), (∀ p, x.touchedNodes p = false) →
      ∀ p, (frameHead x j).1.touchedNodes p = false := by
    intro x j hx
    rw [frameHead_passStart]
    simp only [lightLEDpair, killLEDs, sendMessage, checkCompletion_touchedNodes]
    unfold passStart
    split_ifs
    · exact hx
    · exact fun _ => rfl
    · exact hx
  have hentry : ∀ x : State, (∀ p, x.touchedNodes p = false) →
      ∀ p, (loopEntry x).touchedNodes p = false := by
    intro x hx
    unfold loopEntry
    split <;> exact hx
  have htail : ∀ p, (frameTail s i).1.touchedNodes p = false := by
    unfold frameTail
    split_ifs
    · exact h
    · exact fun _ => rfl
    · exact h
  rw [afterInner_eq]
  apply hpass
  unfold forNext
  split
  · split
    · exact htail
    · exact hentry _ htail
  · exact hentry _ htail

theorem run_touchedNodes (sens : Nat → Readings) (n : Nat) :
    ∀ p, (run sens n).s.touchedNodes p = false :=
  run_invariant (fun s _ => ∀ p, s.touchedNodes p = false) sens (by decide)
    (fun r i s _ p => by
      show (innerTick r i s).s.touchedNodes p = false
      rw [innerTick_touchedNodes])
    (fun s i h => afterInner_touchedNodes s i h) n

/-- C17: after `checkSequence()`, whatever the state and the touch set and whatever step was
or was not completed, all eight `touchedNodes` entries are false and `fridgeUnlocked`,
`cycleCount`, `previousCycle`, `revertTo0`, `started`, the unlock output and the outputs
written so far are unchanged; hence in every run from power-on the touch set is all false
when a frame has been lit and after every tick of the inner loop, that is at the start of
every tick's `checkNodes()`. -/
theorem checkSequence_clears_touches :
    (∀ s : State, (∀ p, (checkSequence s).1.touchedNodes p = false) ∧
      (checkSequence s).1.fridgeUnlocked = s.fridgeUnlocked ∧
      (checkSequence s).1.cycleCount = s.cycleCount ∧
      (checkSequence s).1.previousCycle = s.previousCycle ∧
      (checkSequence s).1.revertTo0 = s.revertTo0 ∧
      (checkSequence s).1.started = s.started ∧
      (checkSequence s).1.unlockedLedPin = s.unlockedLedPin ∧
      (checkSequence s).1.log = s.log) ∧
    (∀ (sens : Nat → Readings) (n : Nat) (p : Fin 8), (run sens n).s.touchedNodes p = false) ∧
    (∀ (sens : Nat → Readings) (n j : Nat) (p : Fin 8),
      (innerLoop sens j (run sens n).tick (run sens n).i (run sens n).s).1.touchedNodes p
        = false) := by
  refine ⟨fun s => ⟨fun p => ?_, rfl, rfl, rfl, rfl, rfl, rfl, rfl⟩, run_touchedNodes,
    fun sens n j => ?_⟩
  · show clearTouched s.touchedNodes p = false
    rw [clear_all]
  · exact innerLoop_invariant (fun s _ => ∀ p, s.touchedNodes p = false) sens
      (fun r i s _ p => by
        show (innerTick r i s).s.touchedNodes p = false
        rw [innerTick_touchedNodes]) j _ _ _ (run_touchedNodes sens n)

/-! ## C18 -/

/-- C18: `checkNodes()` on the cleared touch set marks pad `k` exactly when its reading is
strictly greater than 170 (a reading of exactly 170 does not mark it); `cycleCount` becomes
0 if at least one pad trips and is unchanged otherwise; steps, unlocked flag and all other
variables are unchanged; a second call with the same readings yields the same touch set. -/
theorem checkNodes_threshold (r : Readings) (s : State)
    (h : ∀ p, s.touchedNodes p = false) :
    (∀ k, (checkNodes r s).touchedNodes k = true ↔ r k > 170) ∧
    (∀ k, r k = 170 → (checkNodes r s).touchedNodes k = false) ∧
    (checkNodes r s).cycleCount = (if ∃ k, r k > 170 then 0 else s.cycleCount) ∧
    (checkNodes r s).stepsCompleted = s.stepsCompleted ∧
    (checkNodes r s).fridgeUnlocked = s.fridgeUnlocked ∧
    (checkNodes r s).previousCycle = s.previousCycle ∧
    (checkNodes r s).revertTo0 = s.revertTo0 ∧
    (checkNodes r s).started = s.started ∧
    (checkNodes r s).unlockedLedPin = s.unlockedLedPin ∧
    (checkNodes r s).log = s.log ∧
    (checkNodes r (checkNodes r s)).touchedNodes = (checkNodes r s).touchedNodes ∧
    (checkNodes r { s with touchedNodes := fun _ => false }).touchedNodes =
      (checkNodes r s).touchedNodes := by
  rw [checkNodes_eq, checkNodes_eq, checkNodes_eq]
  refine ⟨fun k => by simp [h k, node_threshold], fun k hk => by simp [h k, node_threshold, hk],
    rfl, rfl, rfl, rfl, rfl, rfl, rfl, rfl, ?_, ?_⟩
  · funext k
    simp
  · funext k
    simp [h k]

/-- C18 at the power-on state with the readings 171 on pad 0, 170 on pad 1 and 0 elsewhere. -/
theorem checkNodes_threshold_witness :
    (checkNodes ![171, 170, 0, 0, 0, 0, 0, 0] init).touchedNodes 0 = true ∧
    (checkNodes ![171, 170, 0, 0, 0, 0, 0, 0] init).touchedNodes 1 = false :=
  have h := checkNodes_threshold ![171, 170, 0, 0, 0, 0, 0, 0] init (fun _ => rfl)
  ⟨(h.1 0).2 (by decide), h.2.1 1 rfl⟩

/-! ## C19 -/

theorem expanderWrites_pin (b : Bool) (l : List Event) :
    expanderWrites (Event.pin b :: l) = expanderWrites l := rfl

theorem expanderWrites_wire (reg m1 m2 : Nat) (l : List Event) :
    expanderWrites (Event.wire reg m1 m2 :: l) = Event.wire reg m1 m2 :: expanderWrites l := rfl

theorem checkCompletion_log (s : State) : (checkCompletion s).1.log = s.log := by
  rw [checkCompletion_fst]
  split <;> rfl

theorem expanderWrites_passStart (s : State) (i : Nat) :
    expanderWrites (passStart s i).log = expanderWrites s.log := by
  unfold passStart
  split_ifs <;> rfl

theorem expanderWrites_frameHead (s : State) (i : Nat) :
    expanderWrites (frameHead s i).1.log =
      Event.wire IODIR0 (LEDpairs (frameHead s i).2).2.1 (LEDpairs (frameHead s i).2).2.2.2.1 ::
      Event.wire GP0 (LEDpairs (frameHead s i).2).1 (LEDpairs (frameHead s i).2).2.2.1 ::
      Event.wire GP0 0 0 :: expanderWrites s.log := by
  rw [frameHead_passStart]
  simp only [lightLEDpair, killLEDs, sendMessage, expanderWrites_wire, checkCompletion_log,
    expanderWrites_passStart]

theorem expanderWrites_loopEntry (s : State) :
    expanderWrites (loopEntry s).log = expanderWrites s.log := by
  unfold loopEntry
  split <;> rfl

theorem expanderWrites_forNext (s : State) (r : Option Nat) :
    expanderWrites (forNext s r).1.log = expanderWrites s.log := by
  unfold forNext
  split
  · split
    · rfl
    · exact expanderWrites_loopEntry s
  · exact expanderWrites_loopEntry s

theorem expanderWrites_blink (s : State) :
    expanderWrites (blink s).log = blinkWrites ++ expanderWrites s.log := by
  simp only [blink, lightLEDpair, killLEDs, sendMessage, expanderWrites_wire]
  rfl

theorem expanderWrites_frameTail (s : State) (i : Nat) :
    expanderWrites (frameTail s i).1.log =
      (if s.revertTo0 = false ∧ s.fridgeUnlocked = true then blinkWrites else []) ++
        expanderWrites s.log := by
  unfold frameTail
  by_cases hr : s.revertTo0 = true
  · simp [hr]
  · simp only [Bool.not_eq_true] at hr
    by_cases hu : s.fridgeUnlocked = true
    · simp only [hr, hu, Bool.false_eq_true, if_false, if_true, and_self]
      show expanderWrites (Event.pin false :: (blink s).log) = _
      rw [expanderWrites_pin, expanderWrites_blink]
    · simp [hr, hu]

theorem expanderWrites_innerLoop (sens : Nat → Readings) (n t i : Nat) (s : State) :
    expanderWrites (innerLoop sens n t i s).1.log = expanderWrites s.log := by
  obtain ⟨l, hl, hall⟩ := innerLoop_log sens n t i s
  rw [hl]
  clear hl
  induction l with
  | nil => rfl
  | cons e l ih =>
    rw [hall e (List.mem_cons_self _ _), List.cons_append, expanderWrites_pin]
    exact ih (fun x hx => hall x (List.mem_cons_of_mem _ hx))

set_option maxRecDepth 1000000 in
/-- C19, as stated, fails: in the run that touches the five pairs in order and then keeps the
pads 1 and 0 touched, the write before the first `GP0` write of frame 10 (0x82, 0x00) of
the animation is the `IODIR0` write (0x40, 0x0A) of frame 0, the frame then lit, not the
kill write (the expander writes are listed newest first). -/
theorem first_blink_write_not_after_kill :
    ((expanderWrites (run sensRelock 3).s.log).drop 3).take 14 =
      [Event.wire IODIR0 0x24 0x00, Event.wire GP0 0x82 0x00, Event.wire GP0 0 0,
        Event.wire IODIR0 0x24 0x00, Event.wire GP0 0x82 0x00, Event.wire GP0 0 0,
        Event.wire IODIR0 0x24 0x00, Event.wire GP0 0x82 0x00, Event.wire GP0 0 0,
        Event.wire IODIR0 0x24 0x00, Event.wire GP0 0x82 0x00,
        Event.wire IODIR0 0x40 0x0A, Event.wire GP0 0x20 0x01, Event.wire GP0 0 0] := by
  decide

/-- C19, amended: at power-on the expander has received the two writes of `setup()`, the kill
write and the two writes of frame 0; the writes that one frame of `loop()` adds are, in
order of time: the writes of the animation if it is played (frame 10, then three times the
kill write and frame 10), then the kill write and the two writes of the next frame lit.
So every frame write of line 163 and every frame write inside the loop of the animation
directly follows the kill write; the first `lightLEDpair(10)` of the animation directly
follows the frame write of the frame then lit. -/
theorem frame_writes_follow_kill :
    expanderWrites powerOn.s.log =
      [Event.wire IODIR0 0x40 0x0A, Event.wire GP0 0x20 0x01, Event.wire GP0 0 0,
        Event.wire GP0 0 0, Event.wire IODIR0 0 0] ∧
    ∀ (sens : Nat → Readings) (m : Machine),
      expanderWrites (frameStep sens m).s.log =
        Event.wire IODIR0 (LEDpairs (frameStep sens m).i).2.1
          (LEDpairs (frameStep sens m).i).2.2.2.1 ::
        Event.wire GP0 (LEDpairs (frameStep sens m).i).1 (LEDpairs (frameStep sens m).i).2.2.1 ::
        Event.wire GP0 0 0 ::
        ((if (innerLoop sens 25 m.tick m.i m.s).1.revertTo0 = false ∧
              (innerLoop sens 25 m.tick m.i m.s).1.fridgeUnlocked = true
            then blinkWrites else []) ++ expanderWrites m.s.log) := by
  refine ⟨by decide, fun sens m => ?_⟩
  show expanderWrites (afterInner (innerLoop sens 25 m.tick m.i m.s).1
      (innerLoop sens 25 m.tick m.i m.s).2.1).1.log = _
  rw [afterInner_eq, expanderWrites_frameHead, expanderWrites_forNext, expanderWrites_frameTail,
    expanderWrites_innerLoop]
  rfl

/-! ## C20 -/

theorem update_true_self (sc : Fin 5 → Bool) (k : Fin 5) (h : sc k = true) :
    Function.update sc k true = sc := by
  rw [← h]; exact Function.update_eq_self k sc

theorem old_none (t : Fin 8 → Bool) (sc : Fin 5 → Bool) (h : ∀ i, pairTouched t i = false) :
    checkSequenceOldSteps t sc = sc := by
  have h0 : (t 1 && t 0) = false := h 0
  have h1 : (t 3 && t 2) = false := h 1
  have h2 : (t 5 && t 4) = false := h 2
  have h3 : (t 5 && t 7) = false := h 3
  have h4 : (t 4 && t 6) = false := h 4
  unfold checkSequenceOldSteps
  simp only [h0, h1, h2, h3, h4, Bool.false_eq_true, if_false, ite_self]

theorem old_single (t : Fin 8 → Bool) (sc : Fin 5 → Bool) (hp : IsPrefix sc) (j : Fin 5)
    (hj : pairTouched t j = true) (h : ∀ i, i ≠ j → pairTouched t i = false) :
    checkSequenceOldSteps t sc = (checkSequenceBody t (sc, -1) j).1 := by
  rw [isPrefix_iff] at hp
  obtain ⟨p0, p1, p2, p3⟩ := hp
  have hv : ∀ k : Fin 5, decide (k.val = 0) = decide (k = 0) := by decide
  unfold checkSequenceBody
  simp only [hj, Bool.and_true, hv]
  unfold checkSequenceOldSteps
  rcases fin5_cases j with rfl | rfl | rfl | rfl | rfl
  · have h0 : (t 1 && t 0) = true := hj
    have h1 : (t 3 && t 2) = false := h 1 (by decide)
    have h2 : (t 5 && t 4) = false := h 2 (by decide)
    have h3 : (t 5 && t 7) = false := h 3 (by decide)
    have h4 : (t 4 && t 6) = false := h 4 (by decide)
    simp only [h0, h1, h2, h3, h4, prevStep_lit, Bool.false_eq_true, if_false, if_true, ite_self]
    cases hs : sc 0 <;> simp [update_true_self, hs]
  · have h0 : (t 1 && t 0) = false := h 0 (by decide)
    have h1 : (t 3 && t 2) = true := hj
    have h2 : (t 5 && t 4) = false := h 2 (by decide)
    have h3 : (t 5 && t 7) = false := h 3 (by decide)
    have h4 : (t 4 && t 6) = false := h 4 (by decide)
    simp only [h0, h1, h2, h3, h4, prevStep_lit, Bool.false_eq_true, if_false, if_true, ite_self]
    cases hs0 : sc 0 <;> cases hs1 : sc 1 <;> simp_all [update_true_self]
  · have h0 : (t 1 && t 0) = false := h 0 (by decide)
    have h1 : (t 3 && t 2) = false := h 1 (by decide)
    have h2 : (t 5 && t 4) = true := hj
    have h3 : (t 5 && t 7) = false := h 3 (by decide)
    have h4 : (t 4 && t 6) = false := h 4 (by decide)
    simp only [h0, h1, h2, h3, h4, prevStep_lit, Bool.false_eq_true, if_false, if_true, ite_self]
    cases hs0 : sc 0 <;> cases hs1 : sc 1 <;> cases hs2 : sc 2 <;> simp_all [update_true_self]
  · have h0 : (t 1 && t 0) = false := h 0 (by decide)
    have h1 : (t 3 && t 2) = false := h 1 (by decide)
    have h2 : (t 5 && t 4) = false := h 2 (by decide)
    have h3 : (t 5 && t 7) = true := hj
    have h4 : (t 4 && t 6) = false := h 4 (by decide)
    simp only [h0, h1, h2, h3, h4, prevStep_lit, Bool.false_eq_true, if_false, if_true, ite_self]
    cases hs0 : sc 0 <;> cases hs1 : sc 1 <;> cases hs2 : sc 2 <;> cases hs3 : sc 3 <;>
      simp_all [update_true_self]
  · have h0 : (t 1 && t 0) = false := h 0 (by decide)
    have h1 : (t 3 && t 2) = false := h 1 (by decide)
    have h2 : (t 5 && t 4) = false := h 2 (by decide)
    have h3 : (t 5 && t 7) = false := h 3 (by decide)
    have h4 : (t 4 && t 6) = true := hj
    simp only [h0, h1, h2, h3, h4, prevStep_lit, Bool.false_eq_true, if_false, if_true, ite_self]
    cases hs0 : sc 0 <;> cases hs1 : sc 1 <;> cases hs2 : sc 2 <;> cases hs3 : sc 3 <;>
      cases hs4 : sc 4 <;> simp_all [update_true_self]

/-- C20: for every contiguous-prefix state and every touch set that holds both pads of at
most one of the five pairs, `checkSequence()` of `swipeFridgeMonsterClass.cpp` (the
`else if` chain) and `checkSequence()` of `swipeFridgeMonsterClass3.cpp` (the loop over
`nodePairs`) leave the same `stepsCompleted` and the same, all-false, `touchedNodes`; on
the non-prefix state with only step 1 completed and the pads 5 and 4 touched they differ:
the loop completes step 2, the chain does not. -/
theorem trackers_agree_on_single_pair :
    (∀ s : State, IsPrefix s.stepsCompleted →
      (∀ i j, pairTouched s.touchedNodes i = true → pairTouched s.touchedNodes j = true →
        i = j) →
      (checkSequence s).1.stepsCompleted = (checkSequenceOld s).stepsCompleted ∧
      (checkSequence s).1.touchedNodes = (checkSequenceOld s).touchedNodes ∧
      (∀ p, (checkSequence s).1.touchedNodes p = false)) ∧
    (¬ IsPrefix (stateWith ![false, true, false, false, false] (touchPads 5 4)).stepsCompleted ∧
      (∀ i j, pairTouched (touchPads 5 4) i = true → pairTouched (touchPads 5 4) j = true →
        i = j) ∧
      (checkSequence (stateWith ![false, true, false, false, false]
        (touchPads 5 4))).1.stepsCompleted 2 = true ∧
      (checkSequenceOld (stateWith ![false, true, false, false, false]
        (touchPads 5 4))).stepsCompleted 2 = false) := by
  refine ⟨fun s hp hone => ⟨?_, rfl, fun p => ?_⟩, by decide⟩
  · show (checkSequenceLoop s.touchedNodes s.stepsCompleted).1 =
      checkSequenceOldSteps s.touchedNodes s.stepsCompleted
    by_cases hnone : ∀ i, pairTouched s.touchedNodes i = false
    · rw [loop_none _ _ hnone, old_none _ _ hnone]
    · push_neg at hnone
      obtain ⟨j, hj⟩ := hnone
      simp only [Bool.not_eq_false] at hj
      have hothers : ∀ i, i ≠ j → pairTouched s.touchedNodes i = false := by
        intro i hi
        by_contra hc
        simp only [Bool.not_eq_false] at hc
        exact hi (hone i j hc hj)
      rw [loop_single _ _ j hothers, old_single _ _ hp j hj hothers]
  · show clearTouched s.touchedNodes p = false
    rw [clear_all]

/-- C20 at a prefix state: step 0 completed, the pads 3 and 2 touched. -/
theorem trackers_agree_on_single_pair_witness :
    (checkSequence (stateWith (stepsUpTo 1) (touchPads 3 2))).1.stepsCompleted =
      (checkSequenceOld (stateWith (stepsUpTo 1) (touchPads 3 2))).stepsCompleted :=
  (trackers_agree_on_single_pair.1 (stateWith (stepsUpTo 1) (touchPads 3 2))
    (by decide) (by decide)).1

end Fridge
